import Mathlib

set_option maxRecDepth 100000

/-!
Shallow embedding of the bz2-watchbot session-tracking core
(`src/main.py`, class `BZBot`).

The stateful Python code is modelled as explicit state passing:
`St` mirrors the bot's mutable dictionaries (`active_sessions`,
`message_ids`, `player_counts`, `last_known_states`,
`last_api_responses`, `last_known_mods`), all represented as insertion
ordered association lists, exactly the behaviour of Python dicts.

Network interaction is modelled through an environment `Env`:
each HTTP call performed by the bot is recorded as an `Ev` value
(the claims' "notification intents") and its response is supplied by
the environment (`createOk`/`msgIdFor` for webhook POSTs,
`patchStatus` for webhook PATCHes).  `Env.setOrder` supplies the
iteration order of a Python `set`, which the interpreter does not fix.

`checkSessions` is the translation of `BZBot.check_sessions`
(one poll cycle), with `sendNotif` = `send_discord_notification`,
`endMessages`/`markEndedSession` = the old-embed ending loop and
`mark_session_ended`, `countPhase` = the player-count block, and
`updateGo` = the per-webhook embed-update loop.  These status-level
definitions describe the exception-free runs; `checkSessionsX` and
the other `...X` definitions additionally model delivery failures
that RAISE at the two PATCH sites lacking a try/except, aborting the
rest of the cycle through the blanket except of `check_sessions`.
-/

/-- One player entry of a session's `Players` array.  `name` is
`player.get('Name')` (absent key gives `none`), `steamId` models a
present `IDs.Steam` dict with an `ID` field, `gogId` likewise for
`IDs.Gog`. -/
structure Player where
  name : Option String
  steamId : Option String
  gogId : Option String
deriving DecidableEq, Repr

/-- The fields of an upstream session object that `check_sessions` and
`has_monitored_player` actually read.  `id` is `session.get('ID')`
with the empty string standing for a missing/empty ID, `name` is
`session.get('Name', '')`, `state` is `Status.State`, `gameMode` is
`Level.GameMode.ID`, `playerCount` is `PlayerCount.Player`,
`maxPlayers` is `PlayerTypes[0].Max`. -/
structure Session where
  id : String
  name : String
  state : Option String
  gameMode : Option String
  players : List Player
  playerCount : Nat
  maxPlayers : Nat
  mapFile : String
deriving DecidableEq, Repr

/-- A successfully fetched and parsed upstream document: the
`Sessions` array plus the `Mods` mapping (mod id to metadata, the
metadata abstracted to a string). -/
structure ApiResp where
  sessions : List Session
  mods : List (String × String)
deriving DecidableEq, Repr

/-- Per-webhook message directory: session id to Discord message id. -/
abbrev SMap := List (String × Nat)

/-- The bot's mutable state (`BZBot.__init__`): Python dicts as
insertion-ordered association lists. -/
structure St where
  active : List (String × Session)
  msgIds : List (String × SMap)
  playerCounts : List (String × Nat)
  lastKnownStates : List (String × Option String)
  lastApiResponses : List (String × ApiResp)
  lastKnownMods : List (String × String)
deriving DecidableEq, Repr

/-- Responses of the external world for one poll cycle.
`createOk w sid k` says whether the k-th webhook POST of the cycle
(creating a message for session `sid` at webhook `w`) returns 200;
`msgIdFor k` is the message id contained in that response.
`patchStatus w mid` is the HTTP status of a PATCH of message `mid` at
webhook `w`.  `setOrder` gives the iteration order of a Python set,
presented with the set's elements as an input list. -/
structure Env where
  createOk : String → String → Nat → Bool
  msgIdFor : Nat → Nat
  patchStatus : String → Nat → Nat
  setOrder : List String → List String

/-- Static configuration (`config.py`): the webhook identifiers
(`DISCORD_WEBHOOKS` keys, insertion ordered) and the monitored roster
(`MONITORED_STEAM_IDS`). -/
structure Cfg where
  webhooks : List String
  monitored : List String

/-- One observable network action of a cycle, tagged with the session
it concerns: a message creation POST (with the returned id, `none` on
a failed POST), a plain embed-update PATCH (with its status), an
"ended" PATCH of an existing message (with its status), and a player
count text notification. -/
inductive Ev where
  | create (w sid : String) (mid : Option Nat)
  | patch (w sid : String) (mid : Nat) (status : Nat)
  | markEnded (w sid : String) (mid : Nat) (status : Nat)
  | countNotify (w sid : String) (content : String)
deriving DecidableEq, Repr

/-- The session an event is about. -/
def evSid : Ev → String
  | .create _ sid _ => sid
  | .patch _ sid _ _ => sid
  | .markEnded _ sid _ _ => sid
  | .countNotify _ sid _ => sid

/-- The destination (webhook) of an event. -/
def evW : Ev → String
  | .create w _ _ => w
  | .patch w _ _ _ => w
  | .markEnded w _ _ _ => w
  | .countNotify w _ _ => w

/-- Dict read: first binding of the key, like a Python dict lookup
(keys are unique by construction). -/
def aGet {α : Type} : List (String × α) → String → Option α
  | [], _ => none
  | p :: m, k => if p.1 = k then some p.2 else aGet m k

/-- Dict write, preserving Python dict semantics: overwriting keeps
the key's insertion position, a fresh key is appended. -/
def aSet {α : Type} : List (String × α) → String → α → List (String × α)
  | [], k, v => [(k, v)]
  | p :: m, k, v => if p.1 = k then (k, v) :: m else p :: aSet m k v

/-- Dict `pop(k, None)`. -/
def aDel {α : Type} : List (String × α) → String → List (String × α)
  | [], _ => []
  | p :: m, k => if p.1 = k then aDel m k else p :: aDel m k

/-- `self.message_ids[w]` (every configured webhook has an entry from
`__init__`; a missing key reads as the empty directory). -/
def wGetD (st : St) (w : String) : SMap :=
  (aGet st.msgIds w).getD []

/-- Write one message-directory entry `(w, sid) := mid`. -/
def setEntry (st : St) (w sid : String) (mid : Nat) : St :=
  { st with msgIds := aSet st.msgIds w (aSet (wGetD st w) sid mid) }

/-- `self.message_ids[w].pop(sid, None)`. -/
def delEntry (st : St) (w sid : String) : St :=
  { st with msgIds := aSet st.msgIds w (aDel (wGetD st w) sid) }

/-- `{**old, **new}`: right-biased dict union, old keys keep their
position, new keys are appended. -/
def mergePy (old new : List (String × String)) : List (String × String) :=
  old.map (fun p => (p.1, (aGet new p.1).getD p.2)) ++
    new.filter (fun p => !(old.any (fun q => q.1 = p.1)))

/-- Accumulator threaded through one poll cycle: the bot state, the
trace of network actions so far, and the number of webhook POSTs made
so far in this cycle (used to index `Env`'s POST responses). -/
structure Cyc where
  st : St
  evs : List Ev
  seq : Nat
deriving Repr

/-- Python's `str.lower()` on an ASCII name, written over the
character list so that it evaluates inside the kernel. -/
def pyLower (s : String) : String := String.mk (s.data.map Char.toLower)

/-- `BZBot.has_monitored_player` (src/main.py:526): not the literal
name "test" (case-insensitively), game mode exactly `STRAT`, a
non-empty player list, and the first player (the host) matching the
monitored roster by Steam id, GOG id, or plain name. -/
def hasMonitoredPlayer (monitored : List String) (s : Session) : Bool :=
  if pyLower s.name = "test" then false
  else if ¬ s.gameMode = some "STRAT" then false
  else
    match s.players with
    | [] => false
    | host :: _ =>
      (match host.steamId with
       | some i => monitored.contains i
       | none => false) ||
      (match host.gogId with
       | some i => monitored.contains i
       | none => false) ||
      (match host.name with
       | some n => monitored.contains n
       | none => false)

/-- The webhook loop of `BZBot.send_discord_notification`
(src/main.py:425): for each webhook, if `is_new` or no message exists
yet, POST a new message; a 200 response stores the returned message id
in the directory. -/
def sendNotifGo (env : Env) (isNew : Bool) (sid : String) :
    List String → Cyc → Cyc
  | [], a => a
  | w :: ws, a =>
    if isNew || (aGet (wGetD a.st w) sid).isNone then
      if env.createOk w sid a.seq then
        sendNotifGo env isNew sid ws
          { st := setEntry a.st w sid (env.msgIdFor a.seq),
            evs := a.evs ++ [Ev.create w sid (some (env.msgIdFor a.seq))],
            seq := a.seq + 1 }
      else
        sendNotifGo env isNew sid ws
          { a with evs := a.evs ++ [Ev.create w sid none], seq := a.seq + 1 }
    else
      sendNotifGo env isNew sid ws a

/-- `BZBot.send_discord_notification` over all configured webhooks. -/
def sendNotif (cfg : Cfg) (env : Env) (isNew : Bool) (sid : String) (a : Cyc) : Cyc :=
  sendNotifGo env isNew sid cfg.webhooks a

/-- The per-webhook loop shared by the "game restarted" branch
(src/main.py:605-623) and `BZBot.mark_session_ended`
(src/main.py:707-833): PATCH each existing message with the ended
presentation and drop its directory entry, whatever the response.
Status-level: faithful to the restart branch (whose PATCH is wrapped
in try/except, so a caught raise behaves like a failure status and the
pop still runs); for `mark_session_ended`, whose PATCH is unprotected,
it covers exception-free runs only — `endMessagesGoX` has the raised
path. -/
def endMessagesGo (env : Env) (sid : String) : List String → Cyc → Cyc
  | [], a => a
  | w :: ws, a =>
    match aGet (wGetD a.st w) sid with
    | none => endMessagesGo env sid ws a
    | some mid =>
      endMessagesGo env sid ws
        { st := delEntry a.st w sid,
          evs := a.evs ++ [Ev.markEnded w sid mid (env.patchStatus w mid)],
          seq := a.seq }

/-- `endMessagesGo` over all configured webhooks. -/
def endMessages (cfg : Cfg) (env : Env) (sid : String) (a : Cyc) : Cyc :=
  endMessagesGo env sid cfg.webhooks a

/-- `BZBot.mark_session_ended` (src/main.py:704): end every live
message of the session, then drop the session from all tracking dicts
(src/main.py:835-840).  Status-level (exception-free runs only): the
PATCH at src/main.py:826 has no try/except, so a raised delivery
failure skips the cleanup — see `markEndedSessionX`. -/
def markEndedSession (cfg : Cfg) (env : Env) (sid : String) (a : Cyc) : Cyc :=
  let a1 := endMessages cfg env sid a
  { a1 with st := { a1.st with
      active := aDel a1.st.active sid,
      playerCounts := aDel a1.st.playerCounts sid,
      lastApiResponses := aDel a1.st.lastApiResponses sid,
      lastKnownStates := aDel a1.st.lastKnownStates sid,
      lastKnownMods := aDel a1.st.lastKnownMods sid } }

/-- `{p.get('Name', '') for p in players}`: the roster as a Python
set of names. -/
def rosterNames (ps : List Player) : List String :=
  (ps.map (fun p => p.name.getD "")).dedup

/-- The player-count block of `check_sessions` (src/main.py:629-648):
on a changed count, compute the joined (or left) set of names, pick
one by set iteration order (`next(iter(...))`), and POST a text
notification to every webhook. -/
def countPhase (cfg : Cfg) (env : Env) (s : Session) (a : Cyc) : Cyc :=
  let sid := s.id
  let prevCount := (aGet a.st.playerCounts sid).getD 0
  if s.playerCount = prevCount then a
  else
    let curNames := rosterNames s.players
    let prevNames := rosterNames (((aGet a.st.active sid).map Session.players).getD [])
    let chosen :=
      if prevCount < s.playerCount then
        ((env.setOrder (curNames.filter (fun n => !(prevNames.contains n)))).head?).getD
          "Unknown" ++ " joined"
      else
        ((env.setOrder (prevNames.filter (fun n => !(curNames.contains n)))).head?).getD
          "Unknown" ++ " left"
    let content := toString s.playerCount ++ "/" ++ toString s.maxPlayers ++
      " (" ++ chosen ++ ")"
    { a with evs := a.evs ++ cfg.webhooks.map (fun w => Ev.countNotify w sid content) }

/-- The embed-update loop of `check_sessions` (src/main.py:650-666):
PATCH each webhook's message; on a 404 drop the directory entry and
immediately call `send_discord_notification(is_new=True)`, which
re-creates messages at every webhook.  Status-level (exception-free
runs only): the PATCH has no try/except, so a raised delivery failure
aborts the loop and the cycle — see `updateGoX`. -/
def updateGo (cfg : Cfg) (env : Env) (sid : String) : List String → Cyc → Cyc
  | [], a => a
  | w :: ws, a =>
    match aGet (wGetD a.st w) sid with
    | none => updateGo cfg env sid ws a
    | some mid =>
      let status := env.patchStatus w mid
      let a1 : Cyc := { a with evs := a.evs ++ [Ev.patch w sid mid status] }
      if status = 200 ∨ status = 204 then updateGo cfg env sid ws a1
      else if status = 404 then
        updateGo cfg env sid ws
          (sendNotif cfg env true sid { a1 with st := delEntry a1.st w sid })
      else updateGo cfg env sid ws a1

/-- The body of the per-session loop of `check_sessions`
(src/main.py:577-671) for one snapshot session. -/
def handleSession (cfg : Cfg) (env : Env) (api : ApiResp) (a : Cyc) (s : Session) : Cyc :=
  if s.id = "" then a
  else if ¬ hasMonitoredPlayer cfg.monitored s then a
  else
    let sid := s.id
    let isNew := (aGet a.st.active sid).isNone
    let needsNew := isNew || !(cfg.webhooks.any (fun w => (aGet (wGetD a.st w) sid).isSome))
    let a1 :=
      if needsNew then sendNotif cfg env true sid a
      else if (aGet a.st.active sid).isSome then
        let a2 :=
          if aGet a.st.lastKnownStates sid = some (some "InGame") ∧ s.state = some "PreGame"
          then sendNotif cfg env true sid (endMessages cfg env sid a)
          else a
        let a3 := countPhase cfg env s a2
        updateGo cfg env sid cfg.webhooks a3
      else a
    { a1 with st := { a1.st with
        active := aSet a1.st.active sid s,
        playerCounts := aSet a1.st.playerCounts sid s.playerCount,
        lastKnownStates := aSet a1.st.lastKnownStates sid s.state,
        lastApiResponses := aSet a1.st.lastApiResponses sid api } }

/-- The ended-session sweep of `check_sessions` (src/main.py:570-575):
every tracked id absent from the snapshot's id set is marked ended. -/
def runEnded (cfg : Cfg) (env : Env) (currentIds : List String) :
    List String → Cyc → Cyc
  | [], a => a
  | sid :: sids, a =>
    if currentIds.contains sid then runEnded cfg env currentIds sids a
    else runEnded cfg env currentIds sids (markEndedSession cfg env sid a)

/-- The per-session sweep of `check_sessions` (src/main.py:577). -/
def runSessions (cfg : Cfg) (env : Env) (api : ApiResp) :
    List Session → Cyc → Cyc
  | [], a => a
  | s :: ss, a => runSessions cfg env api ss (handleSession cfg env api a s)

/-- `BZBot.check_sessions` (src/main.py:559): one poll cycle.  A
failed fetch (`fetch_api_data` returned `None`) ends the cycle with
the state untouched and no network actions.  Otherwise merge the mod
metadata, sweep ended sessions against the snapshot's full id set, and
process every snapshot session in order. -/
def checkSessions (cfg : Cfg) (env : Env) (st : St) (apiOpt : Option ApiResp) :
    St × List Ev :=
  match apiOpt with
  | none => (st, [])
  | some api =>
    let st1 : St := { st with lastKnownMods := mergePy st.lastKnownMods api.mods }
    let currentIds := api.sessions.map Session.id
    let a0 : Cyc := ⟨st1, [], 0⟩
    let a1 := runEnded cfg env currentIds (st1.active.map Prod.fst) a0
    let a2 := runSessions cfg env api api.sessions a1
    (a2.st, a2.evs)

/-- `BZBot.fetch_api_data` outcomes (src/main.py:110): a parsed
document on HTTP 200, otherwise `None` (non-200 status, network
error, or a body that fails to parse). -/
inductive FetchOutcome where
  | ok (r : ApiResp)
  | httpError (status : Nat)
  | netError
  | parseError
deriving DecidableEq, Repr

/-- The value `fetch_api_data` hands to `check_sessions`. -/
def fetchResult : FetchOutcome → Option ApiResp
  | .ok r => some r
  | .httpError _ => none
  | .netError => none
  | .parseError => none

/-!
External-message ledger.  Modelled from the spec: the Discord side is
not part of the repository, so the effect of the bot's network actions
on the set of externally existing messages is modelled from the spec's
message-slot state machine (spec §4.3): a successful `Create` brings a
new live message into existence, a successful `MarkEnded` patch moves
the message to its terminal presentation (no longer a live session
message), a plain `Patch` leaves liveness unchanged, and a 404 means
the target message did not exist.
-/

/-- One externally existing Discord message: its webhook, the session
it renders, its message id, and whether it is still live (not yet
shown with the terminal "ended" presentation). -/
structure ExtMsg where
  w : String
  sid : String
  mid : Nat
  live : Bool
deriving DecidableEq, Repr

/-- Effect of one network action on the external ledger. -/
def applyEv (world : List ExtMsg) : Ev → List ExtMsg
  | .create w sid (some mid) => world ++ [⟨w, sid, mid, true⟩]
  | .create _ _ none => world
  | .markEnded w _ mid status =>
    if status = 200 ∨ status = 204 then
      world.map (fun m => if m.w = w ∧ m.mid = mid then { m with live := false } else m)
    else world
  | .patch _ _ _ _ => world
  | .countNotify _ _ _ => world

/-- Number of live external messages for one (session, destination)
pair. -/
def liveCount (world : List ExtMsg) (w sid : String) : Nat :=
  (world.filter (fun m => m.w = w ∧ m.sid = sid ∧ m.live)).length

/-!
Concrete scenario data used by counterexamples and witnesses: two
configured webhooks `D1`, `D2`, one monitored host (`Steam id S1`)
hosting session `A` (a `STRAT` lobby with two players), tracked with
one directory entry per webhook.
-/

/-- Monitored host: first player of session `A`. -/
def pHost : Player := ⟨some "Alice", some "S1", none⟩

/-- Second player of session `A`. -/
def pBob : Player := ⟨some "Bob", none, none⟩

/-- Third player, used in roster-change scenarios. -/
def pCarol : Player := ⟨some "Carol", none, none⟩

/-- Session `A` as last seen: a two-player `STRAT` lobby. -/
def sessA : Session :=
  { id := "A", name := "game", state := some "PreGame",
    gameMode := some "STRAT", players := [pHost, pBob],
    playerCount := 2, maxPlayers := 10, mapFile := "map1" }

/-- Two destinations, one monitored Steam id. -/
def cfg2 : Cfg := ⟨["D1", "D2"], ["S1"]⟩

/-- A snapshot containing exactly session `A`, unchanged. -/
def apiA : ApiResp := ⟨[sessA], []⟩

/-- Tracked state after a poll that saw `sessA`: message 100 at `D1`,
message 200 at `D2`. -/
def stA : St :=
  { active := [("A", sessA)],
    msgIds := [("D1", [("A", 100)]), ("D2", [("A", 200)])],
    playerCounts := [("A", 2)],
    lastKnownStates := [("A", some "PreGame")],
    lastApiResponses := [("A", apiA)],
    lastKnownMods := [] }

/-- Benign environment: every POST succeeds with fresh ids 1000,
1001, ..., every PATCH returns 200, set iteration order is the order
the elements were listed. -/
def envA : Env :=
  ⟨fun _ _ _ => true, fun k => 1000 + k, fun _ _ => 200, fun l => l⟩

/-- Environment in which the PATCH of message 100 at `D1` answers
404 (the message was deleted externally); everything else succeeds. -/
def env404 : Env :=
  ⟨fun _ _ _ => true, fun k => 1000 + k,
   fun w mid => if w = "D1" ∧ mid = 100 then 404 else 200, fun l => l⟩

/-- The directory entry for `(w, sid)`: the message id the bot
believes exists at webhook `w` for session `sid`. -/
def entry (st : St) (w sid : String) : Option Nat :=
  aGet (wGetD st w) sid

/-- The create events `send_discord_notification(is_new=True)` emits:
one POST per configured webhook, numbered from `k`. -/
def createTrace (env : Env) (sid : String) : List String → Nat → List Ev
  | [], _ => []
  | w :: ws, k =>
    (if env.createOk w sid k then Ev.create w sid (some (env.msgIdFor k))
     else Ev.create w sid none) :: createTrace env sid ws (k + 1)

/-- The "ended" patches emitted for `sid`: one per webhook holding a
directory entry in `st`. -/
def endedTrace (env : Env) (st : St) (sid : String) (ws : List String) : List Ev :=
  ws.filterMap (fun w => (entry st w sid).map
    (fun mid => Ev.markEnded w sid mid (env.patchStatus w mid)))

/-- The plain update patches emitted for `sid`: one per webhook
holding a directory entry in `st`. -/
def patchTrace (env : Env) (st : St) (sid : String) (ws : List String) : List Ev :=
  ws.filterMap (fun w => (entry st w sid).map
    (fun mid => Ev.patch w sid mid (env.patchStatus w mid)))

/-- The five non-directory components of the state are never touched
by a dispatch loop. -/
def sameNonDir (st stb : St) : Prop :=
  stb.active = st.active ∧ stb.playerCounts = st.playerCounts ∧
  stb.lastKnownStates = st.lastKnownStates ∧
  stb.lastApiResponses = st.lastApiResponses ∧
  stb.lastKnownMods = st.lastKnownMods

/-- Boolean matcher for a MarkEnded event of pair `(w, sid)`. -/
def isEndedFor (w sid : String) : Ev → Bool
  | .markEnded w2 sid2 _ _ => w2 = w && sid2 = sid
  | _ => false

/-- All tracked data of session `sid` is unchanged between `a` and
`b`, and `b` only appends events about other sessions. -/
def untouched (sid : String) (a b : Cyc) : Prop :=
  aGet b.st.active sid = aGet a.st.active sid ∧
  aGet b.st.playerCounts sid = aGet a.st.playerCounts sid ∧
  aGet b.st.lastKnownStates sid = aGet a.st.lastKnownStates sid ∧
  aGet b.st.lastApiResponses sid = aGet a.st.lastApiResponses sid ∧
  (∀ w, entry b.st w sid = entry a.st w sid) ∧
  (∃ t, b.evs = a.evs ++ t ∧ ∀ e ∈ t, evSid e ≠ sid)

/-!  Further concrete scenario data for counterexamples. -/

/-- External ledger matching `stA` after `D1`'s message was deleted
externally: only `D2`'s message 200 still exists, live. -/
def worldA : List ExtMsg := [⟨"D2", "A", 200, true⟩]

/-- Session `A` renamed to "Test": still in the snapshot, but no
longer satisfying the relevance predicate. -/
def sessTest : Session := { sessA with name := "Test" }

/-- Snapshot in which session `A` is present but renamed "Test". -/
def apiTest : ApiResp := ⟨[sessTest], []⟩

/-- Fourth player, for a two-players-joined-at-once scenario. -/
def pDave : Player := ⟨some "Dave", none, none⟩

/-- Session `A` after Carol and Dave both joined. -/
def sessJ : Session := { sessA with players := [pHost, pBob, pCarol, pDave], playerCount := 4 }

/-- Snapshot with the two-players-joined session. -/
def apiJ : ApiResp := ⟨[sessJ], []⟩

/-- Same environment as `envA` except that Python-set iteration
enumerates in the reverse order. -/
def env9r : Env := { envA with setOrder := fun l => l.reverse }

/-- Modelled from the spec claim's wording (C10): relevance requires a
non-empty player list, a session name not equal to "test"
case-insensitively, and game mode exactly STRAT; the host is the first
element of the Players array and matches by precedence: Steam id in
the monitored list, else GOG id, else plain name. -/
def specRelevant (monitored : List String) (s : Session) : Bool :=
  match s.players with
  | [] => false
  | host :: _ =>
    if pyLower s.name = "test" then false
    else if ¬ s.gameMode = some "STRAT" then false
    else
      cond (match host.steamId with
            | some i => monitored.contains i
            | none => false)
        true
        (cond (match host.gogId with
               | some i => monitored.contains i
               | none => false)
          true
          (match host.name with
           | some n => monitored.contains n
           | none => false))

/-- One webhook's directory holds at most one entry per session id:
its key list has no duplicates. -/
def SMapOK (m : SMap) : Prop := (m.map Prod.fst).Nodup

/-- Every webhook's message directory holds at most one identifier
per session. -/
def DirOK (st : St) : Prop := ∀ w, SMapOK (wGetD st w)

/-- The empty bot state (fresh process). -/
def stEmpty : St := ⟨[], [], [], [], [], []⟩

/-- `stA` with the previous lifecycle state recorded as `InGame`. -/
def st6 : St := { stA with lastKnownStates := [("A", some "InGame")] }

/-- A second relevant session, hosted by the same monitored player. -/
def sessB : Session := { sessA with id := "B", name := "game2" }

/-- Snapshot in which session `A` has vanished while `B` is present. -/
def apiB : ApiResp := ⟨[sessB], []⟩

/-- Environment whose every PATCH fails with 500. -/
def env500 : Env := ⟨fun _ _ _ => true, fun k => 1000 + k, fun _ _ => 500, fun l => l⟩

/-- Session `A` after exactly one player (Carol) joined. -/
def sessC : Session :=
  { sessA with players := [pHost, pBob, pCarol], playerCount := 3 }

/-!  Exception-aware variant of the poll cycle.

Two PATCH sites of `check_sessions` are NOT wrapped in a per-iteration
try/except: the ended-message PATCH inside `mark_session_ended`
(src/main.py:826-833) and the embed-update PATCH of the update loop
(src/main.py:650-666).  A delivery failure that RAISES there
(timeout, connection error) propagates to the blanket `except` of
`check_sessions` (src/main.py:673-675), which only logs: the rest of
the cycle — later destinations, later sessions, the pending `pop`s
and the tail state writes — is skipped, while mutations already
performed persist.  Every other network call is protected
per-iteration (`send_discord_notification` src/main.py:425-495, the
restart-branch ended loop src/main.py:608-623,
`send_player_count_notification` src/main.py:513-524), so raised
failures there cannot escape.

The `...X` definitions model this: `raises w mid` says whether the
PATCH of message `mid` at webhook `w` raises instead of returning a
status.  `Except.error a` is a cycle aborted at accumulator `a`
(a raising PATCH has no response status, so no completed-attempt
event is recorded for it).  The status-level definitions above are
the special case of exception-free runs, see
`checkSessionsX_no_raise`. -/

/-- The never-raising oracle: every PATCH returns a status. -/
def noRaise : String → Nat → Bool := fun _ _ => false

/-- `BZBot.mark_session_ended`'s per-webhook loop, exception-aware
(src/main.py:707-833): the PATCH has no try/except, so a raised
delivery failure aborts before this webhook's `pop` and before every
later webhook. -/
def endMessagesGoX (env : Env) (raises : String → Nat → Bool) (sid : String) :
    List String → Cyc → Except Cyc Cyc
  | [], a => Except.ok a
  | w :: ws, a =>
    match aGet (wGetD a.st w) sid with
    | none => endMessagesGoX env raises sid ws a
    | some mid =>
      if raises w mid then Except.error a
      else
        endMessagesGoX env raises sid ws
          { st := delEntry a.st w sid,
            evs := a.evs ++ [Ev.markEnded w sid mid (env.patchStatus w mid)],
            seq := a.seq }

/-- `BZBot.mark_session_ended`, exception-aware: the final cleanup of
the five tracking dicts (src/main.py:835-840) runs only if no ended
PATCH raised. -/
def markEndedSessionX (cfg : Cfg) (env : Env) (raises : String → Nat → Bool)
    (sid : String) (a : Cyc) : Except Cyc Cyc :=
  match endMessagesGoX env raises sid cfg.webhooks a with
  | Except.error a1 => Except.error a1
  | Except.ok a1 =>
    Except.ok { a1 with st := { a1.st with
      active := aDel a1.st.active sid,
      playerCounts := aDel a1.st.playerCounts sid,
      lastApiResponses := aDel a1.st.lastApiResponses sid,
      lastKnownStates := aDel a1.st.lastKnownStates sid,
      lastKnownMods := aDel a1.st.lastKnownMods sid } }

/-- The ended-session sweep (src/main.py:570-575), exception-aware: a
raise inside `mark_session_ended` aborts the sweep (and the whole
cycle). -/
def runEndedX (cfg : Cfg) (env : Env) (raises : String → Nat → Bool)
    (currentIds : List String) : List String → Cyc → Except Cyc Cyc
  | [], a => Except.ok a
  | sid :: sids, a =>
    if currentIds.contains sid then runEndedX cfg env raises currentIds sids a
    else
      match markEndedSessionX cfg env raises sid a with
      | Except.error a1 => Except.error a1
      | Except.ok a1 => runEndedX cfg env raises currentIds sids a1

/-- The embed-update loop (src/main.py:650-666), exception-aware: the
PATCH has no try/except, so a raised delivery failure aborts the loop;
the 404-recovery `send_discord_notification` is internally protected
and cannot raise. -/
def updateGoX (cfg : Cfg) (env : Env) (raises : String → Nat → Bool)
    (sid : String) : List String → Cyc → Except Cyc Cyc
  | [], a => Except.ok a
  | w :: ws, a =>
    match aGet (wGetD a.st w) sid with
    | none => updateGoX cfg env raises sid ws a
    | some mid =>
      if raises w mid then Except.error a
      else
        let status := env.patchStatus w mid
        let a1 : Cyc := { a with evs := a.evs ++ [Ev.patch w sid mid status] }
        if status = 200 ∨ status = 204 then updateGoX cfg env raises sid ws a1
        else if status = 404 then
          updateGoX cfg env raises sid ws
            (sendNotif cfg env true sid { a1 with st := delEntry a1.st w sid })
        else updateGoX cfg env raises sid ws a1

/-- The per-session body (src/main.py:577-671), exception-aware: an
abort inside the update loop also skips the tail state writes
(src/main.py:668-671) for this session. -/
def handleSessionX (cfg : Cfg) (env : Env) (raises : String → Nat → Bool)
    (api : ApiResp) (a : Cyc) (s : Session) : Except Cyc Cyc :=
  if s.id = "" then Except.ok a
  else if ¬ hasMonitoredPlayer cfg.monitored s then Except.ok a
  else
    let sid := s.id
    let isNew := (aGet a.st.active sid).isNone
    let needsNew := isNew || !(cfg.webhooks.any (fun w => (aGet (wGetD a.st w) sid).isSome))
    let finish : Cyc → Cyc := fun a1 =>
      { a1 with st := { a1.st with
          active := aSet a1.st.active sid s,
          playerCounts := aSet a1.st.playerCounts sid s.playerCount,
          lastKnownStates := aSet a1.st.lastKnownStates sid s.state,
          lastApiResponses := aSet a1.st.lastApiResponses sid api } }
    if needsNew then Except.ok (finish (sendNotif cfg env true sid a))
    else if (aGet a.st.active sid).isSome then
      let a2 :=
        if aGet a.st.lastKnownStates sid = some (some "InGame") ∧ s.state = some "PreGame"
        then sendNotif cfg env true sid (endMessages cfg env sid a)
        else a
      let a3 := countPhase cfg env s a2
      match updateGoX cfg env raises sid cfg.webhooks a3 with
      | Except.error a1 => Except.error a1
      | Except.ok a1 => Except.ok (finish a1)
    else Except.ok (finish a)

/-- The per-session sweep, exception-aware: an abort skips every later
session of the snapshot. -/
def runSessionsX (cfg : Cfg) (env : Env) (raises : String → Nat → Bool)
    (api : ApiResp) : List Session → Cyc → Except Cyc Cyc
  | [], a => Except.ok a
  | s :: ss, a =>
    match handleSessionX cfg env raises api a s with
    | Except.error a1 => Except.error a1
    | Except.ok a1 => runSessionsX cfg env raises api ss a1

/-- `BZBot.check_sessions`, exception-aware: the blanket `except` at
src/main.py:673-675 only logs, so an aborted cycle simply ends with
the state and trace reached at the abort point. -/
def checkSessionsX (cfg : Cfg) (env : Env) (raises : String → Nat → Bool)
    (st : St) (apiOpt : Option ApiResp) : St × List Ev :=
  match apiOpt with
  | none => (st, [])
  | some api =>
    let st1 : St := { st with lastKnownMods := mergePy st.lastKnownMods api.mods }
    let currentIds := api.sessions.map Session.id
    match runEndedX cfg env raises currentIds (st1.active.map Prod.fst) ⟨st1, [], 0⟩ with
    | Except.error a => (a.st, a.evs)
    | Except.ok a =>
      match runSessionsX cfg env raises api api.sessions a with
      | Except.error b => (b.st, b.evs)
      | Except.ok b => (b.st, b.evs)

/-- Oracle under which the PATCHes of webhook `D1` raise (a timeout or
connection error) while every other PATCH returns a status. -/
def raisesD1 : String → Nat → Bool := fun w _ => decide (w = "D1")

/-- Snapshot containing the tracked session `A` unchanged plus the new
relevant session `B`. -/
def apiAB : ApiResp := ⟨[sessA, sessB], []⟩

/-!  Basic association-list lemmas. -/

theorem aGet_aSet_self {α : Type} (m : List (String × α)) (k : String) (v : α) :
    aGet (aSet m k v) k = some v := by
  induction m with
  | nil => simp [aGet, aSet]
  | cons p m ih =>
    by_cases h : p.1 = k
    · simp [aSet, aGet, h]
    · simp [aSet, aGet, h, ih]

theorem aGet_aSet_ne {α : Type} (m : List (String × α)) {k k' : String} (v : α)
    (h : k' ≠ k) : aGet (aSet m k v) k' = aGet m k' := by
  induction m with
  | nil => simp [aGet, aSet, Ne.symm h]
  | cons p m ih =>
    by_cases hp : p.1 = k
    · simp [aSet, aGet, hp, Ne.symm h]
    · by_cases hp' : p.1 = k'
      · simp [aSet, aGet, hp, hp', h]
      · simp [aSet, aGet, hp, hp', ih]

theorem aGet_aDel_self {α : Type} (m : List (String × α)) (k : String) :
    aGet (aDel m k) k = none := by
  induction m with
  | nil => simp [aGet, aDel]
  | cons p m ih =>
    by_cases h : p.1 = k
    · simp [aDel, h, ih]
    · simp [aDel, aGet, h, ih]

theorem aGet_aDel_ne {α : Type} (m : List (String × α)) {k k' : String}
    (h : k' ≠ k) : aGet (aDel m k) k' = aGet m k' := by
  induction m with
  | nil => simp [aGet, aDel]
  | cons p m ih =>
    by_cases hp : p.1 = k
    · simp [aDel, aGet, hp, ih, Ne.symm h]
    · by_cases hp' : p.1 = k'
      · simp [aDel, aGet, hp, hp', h]
      · simp [aDel, aGet, hp, hp', ih]

theorem mem_keys_aSet {α : Type} (m : List (String × α)) (k x : String) (v : α) :
    x ∈ (aSet m k v).map Prod.fst ↔ x ∈ m.map Prod.fst ∨ x = k := by
  induction m with
  | nil => simp [aSet]
  | cons p m ih =>
    by_cases h : p.1 = k
    · subst h
      simp [aSet]
      tauto
    · simp [aSet, h, ih]
      tauto

theorem nodup_keys_aSet {α : Type} (m : List (String × α)) (k : String) (v : α)
    (h : (m.map Prod.fst).Nodup) : ((aSet m k v).map Prod.fst).Nodup := by
  induction m with
  | nil => simp [aSet]
  | cons p m ih =>
    rw [List.map_cons, List.nodup_cons] at h
    by_cases hp : p.1 = k
    · subst hp
      simpa [aSet] using h
    · simp only [aSet, if_neg hp, List.map_cons, List.nodup_cons]
      refine ⟨fun hx => ?_, ih h.2⟩
      rcases (mem_keys_aSet m k p.1 v).1 hx with h1 | h1
      · exact h.1 h1
      · exact hp h1

theorem sublist_aDel {α : Type} (m : List (String × α)) (k : String) :
    (aDel m k).Sublist m := by
  induction m with
  | nil => simp [aDel]
  | cons p m ih =>
    by_cases h : p.1 = k
    · simp only [aDel, if_pos h]
      exact ih.cons p
    · simp only [aDel, if_neg h]
      exact ih.cons₂ p

theorem nodup_keys_aDel {α : Type} (m : List (String × α)) (k : String)
    (h : (m.map Prod.fst).Nodup) : ((aDel m k).map Prod.fst).Nodup :=
  ((sublist_aDel m k).map Prod.fst).nodup h

/-!  Message-directory entry lemmas on `St`. -/

theorem wGetD_setEntry_self (st : St) (w sid : String) (mid : Nat) :
    wGetD (setEntry st w sid mid) w = aSet (wGetD st w) sid mid := by
  simp [wGetD, setEntry, aGet_aSet_self]

theorem wGetD_setEntry_ne (st : St) {w w' : String} (sid : String) (mid : Nat)
    (h : w' ≠ w) : wGetD (setEntry st w sid mid) w' = wGetD st w' := by
  simp [wGetD, setEntry, aGet_aSet_ne _ _ h]

theorem wGetD_delEntry_self (st : St) (w sid : String) :
    wGetD (delEntry st w sid) w = aDel (wGetD st w) sid := by
  simp [wGetD, delEntry, aGet_aSet_self]

theorem wGetD_delEntry_ne (st : St) {w w' : String} (sid : String)
    (h : w' ≠ w) : wGetD (delEntry st w sid) w' = wGetD st w' := by
  simp [wGetD, delEntry, aGet_aSet_ne _ _ h]

theorem entry_setEntry_self (st : St) (w sid : String) (mid : Nat) :
    entry (setEntry st w sid mid) w sid = some mid := by
  simp [entry, wGetD_setEntry_self, aGet_aSet_self]

theorem entry_setEntry_ne_sid (st : St) (w w' : String) {sid sid' : String} (mid : Nat)
    (h : sid' ≠ sid) : entry (setEntry st w sid mid) w' sid' = entry st w' sid' := by
  by_cases hw : w' = w
  · subst hw
    simp [entry, wGetD_setEntry_self, aGet_aSet_ne _ _ h]
  · simp [entry, wGetD_setEntry_ne _ _ _ hw]

theorem entry_setEntry_ne_w (st : St) {w w' : String} (sid sid' : String) (mid : Nat)
    (h : w' ≠ w) : entry (setEntry st w sid mid) w' sid' = entry st w' sid' := by
  simp [entry, wGetD_setEntry_ne _ _ _ h]

theorem entry_delEntry_self (st : St) (w sid : String) :
    entry (delEntry st w sid) w sid = none := by
  simp [entry, wGetD_delEntry_self, aGet_aDel_self]

theorem entry_delEntry_ne_sid (st : St) (w w' : String) {sid sid' : String}
    (h : sid' ≠ sid) : entry (delEntry st w sid) w' sid' = entry st w' sid' := by
  by_cases hw : w' = w
  · subst hw
    simp [entry, wGetD_delEntry_self, aGet_aDel_ne _ h]
  · simp [entry, wGetD_delEntry_ne _ _ hw]

theorem entry_delEntry_ne_w (st : St) {w w' : String} (sid sid' : String)
    (h : w' ≠ w) : entry (delEntry st w sid) w' sid' = entry st w' sid' := by
  simp [entry, wGetD_delEntry_ne _ _ h]

theorem setEntry_active (st : St) (w sid : String) (mid : Nat) :
    (setEntry st w sid mid).active = st.active := rfl

theorem setEntry_playerCounts (st : St) (w sid : String) (mid : Nat) :
    (setEntry st w sid mid).playerCounts = st.playerCounts := rfl

theorem setEntry_lastKnownStates (st : St) (w sid : String) (mid : Nat) :
    (setEntry st w sid mid).lastKnownStates = st.lastKnownStates := rfl

theorem setEntry_lastApiResponses (st : St) (w sid : String) (mid : Nat) :
    (setEntry st w sid mid).lastApiResponses = st.lastApiResponses := rfl

theorem setEntry_lastKnownMods (st : St) (w sid : String) (mid : Nat) :
    (setEntry st w sid mid).lastKnownMods = st.lastKnownMods := rfl

theorem delEntry_active (st : St) (w sid : String) :
    (delEntry st w sid).active = st.active := rfl

theorem delEntry_playerCounts (st : St) (w sid : String) :
    (delEntry st w sid).playerCounts = st.playerCounts := rfl

theorem delEntry_lastKnownStates (st : St) (w sid : String) :
    (delEntry st w sid).lastKnownStates = st.lastKnownStates := rfl

theorem delEntry_lastApiResponses (st : St) (w sid : String) :
    (delEntry st w sid).lastApiResponses = st.lastApiResponses := rfl

theorem delEntry_lastKnownMods (st : St) (w sid : String) :
    (delEntry st w sid).lastKnownMods = st.lastKnownMods := rfl

/-!  Trace shapes of the three dispatch loops. -/

theorem createTrace_mem (env : Env) (sid : String) (ws : List String) (k : Nat) :
    ∀ w ∈ ws, ∃ r, Ev.create w sid r ∈ createTrace env sid ws k := by
  induction ws generalizing k with
  | nil => simp
  | cons w0 ws ih =>
    intro w hw
    rcases List.mem_cons.1 hw with h | h
    · subst h
      by_cases hc : env.createOk w sid k
      · exact ⟨some (env.msgIdFor k), by simp [createTrace, hc]⟩
      · exact ⟨none, by simp [createTrace, hc]⟩
    · rcases ih (k + 1) w h with ⟨r, hr⟩
      exact ⟨r, by simp [createTrace, hr]⟩

theorem createTrace_shape (env : Env) (sid : String) (ws : List String) (k : Nat) :
    ∀ e ∈ createTrace env sid ws k, ∃ w r, e = Ev.create w sid r := by
  induction ws generalizing k with
  | nil => simp [createTrace]
  | cons w0 ws ih =>
    intro e he
    rw [createTrace] at he
    rcases List.mem_cons.1 he with h | h
    · by_cases hc : env.createOk w0 sid k
      · exact ⟨w0, some (env.msgIdFor k), by simpa [hc] using h⟩
      · exact ⟨w0, none, by simpa [hc] using h⟩
    · exact ih (k + 1) e h

theorem endedTrace_congr (env : Env) {st1 st2 : St} (sid : String) {ws : List String}
    (h : ∀ w ∈ ws, entry st1 w sid = entry st2 w sid) :
    endedTrace env st1 sid ws = endedTrace env st2 sid ws := by
  unfold endedTrace
  exact List.filterMap_congr (fun w hw => by rw [h w hw])

theorem endedTrace_shape (env : Env) (st : St) (sid : String) (ws : List String) :
    ∀ e ∈ endedTrace env st sid ws, ∃ w mid stt, e = Ev.markEnded w sid mid stt := by
  unfold endedTrace
  intro e he
  rcases List.mem_filterMap.1 he with ⟨w, _, hmap⟩
  rcases Option.map_eq_some'.1 hmap with ⟨mid, _, rfl⟩
  exact ⟨w, mid, env.patchStatus w mid, rfl⟩

theorem patchTrace_shape (env : Env) (st : St) (sid : String) (ws : List String) :
    ∀ e ∈ patchTrace env st sid ws, ∃ w mid, e = Ev.patch w sid mid (env.patchStatus w mid) ∧
      entry st w sid = some mid := by
  unfold patchTrace
  intro e he
  rcases List.mem_filterMap.1 he with ⟨w, _, hmap⟩
  rcases Option.map_eq_some'.1 hmap with ⟨mid, hmid, rfl⟩
  exact ⟨w, mid, rfl, hmid⟩

/-!  `sendNotifGo` lemmas (all call sites pass `is_new=True`). -/

theorem sendNotifGo_true_evs (env : Env) (sid : String) (ws : List String) (a : Cyc) :
    (sendNotifGo env true sid ws a).evs = a.evs ++ createTrace env sid ws a.seq := by
  induction ws generalizing a with
  | nil => simp [sendNotifGo, createTrace]
  | cons w ws ih =>
    by_cases hc : env.createOk w sid a.seq
    · simp [sendNotifGo, hc, ih, createTrace]
    · simp [sendNotifGo, hc, ih, createTrace]

theorem sendNotifGo_true_seq (env : Env) (sid : String) (ws : List String) (a : Cyc) :
    (sendNotifGo env true sid ws a).seq = a.seq + ws.length := by
  induction ws generalizing a with
  | nil => simp [sendNotifGo]
  | cons w ws ih =>
    by_cases hc : env.createOk w sid a.seq
    · simp [sendNotifGo, hc, ih]
      omega
    · simp [sendNotifGo, hc, ih]
      omega

theorem sameNonDir_refl (st : St) : sameNonDir st st :=
  ⟨rfl, rfl, rfl, rfl, rfl⟩

theorem sameNonDir_trans {s1 s2 s3 : St} (h1 : sameNonDir s1 s2)
    (h2 : sameNonDir s2 s3) : sameNonDir s1 s3 := by
  obtain ⟨a1, b1, c1, d1, e1⟩ := h1
  obtain ⟨a2, b2, c2, d2, e2⟩ := h2
  exact ⟨a2.trans a1, b2.trans b1, c2.trans c1, d2.trans d1, e2.trans e1⟩

theorem sameNonDir_setEntry (st : St) (w sid : String) (mid : Nat) :
    sameNonDir st (setEntry st w sid mid) :=
  ⟨rfl, rfl, rfl, rfl, rfl⟩

theorem sameNonDir_delEntry (st : St) (w sid : String) :
    sameNonDir st (delEntry st w sid) :=
  ⟨rfl, rfl, rfl, rfl, rfl⟩

theorem sendNotifGo_sameNonDir (env : Env) (isNew : Bool) (sid : String)
    (ws : List String) (a : Cyc) :
    sameNonDir a.st (sendNotifGo env isNew sid ws a).st := by
  induction ws generalizing a with
  | nil => exact sameNonDir_refl _
  | cons w ws ih =>
    unfold sendNotifGo
    by_cases h1 : (isNew || (aGet (wGetD a.st w) sid).isNone) = true
    · rw [if_pos h1]
      by_cases hc : env.createOk w sid a.seq
      · rw [if_pos hc]
        exact sameNonDir_trans (sameNonDir_setEntry _ _ _ _) (ih _)
      · rw [if_neg hc]
        exact ih _
    · rw [if_neg h1]
      exact ih _

theorem sendNotifGo_entry_ne_sid (env : Env) (isNew : Bool) {sid sid' : String}
    (ws : List String) (a : Cyc) (w' : String) (h : sid' ≠ sid) :
    entry (sendNotifGo env isNew sid ws a).st w' sid' = entry a.st w' sid' := by
  induction ws generalizing a with
  | nil => rfl
  | cons w ws ih =>
    unfold sendNotifGo
    by_cases h1 : (isNew || (aGet (wGetD a.st w) sid).isNone) = true
    · rw [if_pos h1]
      by_cases hc : env.createOk w sid a.seq
      · rw [if_pos hc, ih]
        exact entry_setEntry_ne_sid _ _ _ _ h
      · rw [if_neg hc, ih]
    · rw [if_neg h1]
      exact ih _

theorem sendNotifGo_entry_not_mem (env : Env) (isNew : Bool) (sid : String)
    {ws : List String} (a : Cyc) {w' : String} (h : w' ∉ ws) (sid' : String) :
    entry (sendNotifGo env isNew sid ws a).st w' sid' = entry a.st w' sid' := by
  induction ws generalizing a with
  | nil => rfl
  | cons w ws ih =>
    have hw : w' ≠ w := fun hh => h (hh ▸ List.mem_cons_self w ws)
    have hws : w' ∉ ws := fun hh => h (List.mem_cons_of_mem w hh)
    unfold sendNotifGo
    by_cases h1 : (isNew || (aGet (wGetD a.st w) sid).isNone) = true
    · rw [if_pos h1]
      by_cases hc : env.createOk w sid a.seq
      · rw [if_pos hc, ih _ hws]
        exact entry_setEntry_ne_w _ _ _ _ hw
      · rw [if_neg hc, ih _ hws]
    · rw [if_neg h1]
      exact ih _ hws

theorem sendNotifGo_true_isSome (env : Env) (sid : String) (ws : List String)
    (a : Cyc) (w : String) (h : (entry a.st w sid).isSome) :
    (entry (sendNotifGo env true sid ws a).st w sid).isSome := by
  induction ws generalizing a with
  | nil => exact h
  | cons w0 ws ih =>
    unfold sendNotifGo
    simp only [Bool.true_or, if_pos]
    by_cases hc : env.createOk w0 sid a.seq
    · rw [if_pos hc]
      refine ih _ ?_
      by_cases hw : w = w0
      · subst hw
        rw [entry_setEntry_self]
        rfl
      · rw [entry_setEntry_ne_w _ _ _ _ hw]
        exact h
    · rw [if_neg hc]
      exact ih _ h

theorem sendNotifGo_true_bound (env : Env) (sid : String) (ws : List String)
    (a : Cyc) (B : Nat) (S : List String) (hB : ∀ k, B ≤ env.msgIdFor k)
    (hP : ∀ w ∈ S, ∀ mid, entry a.st w sid = some mid → B ≤ mid) :
    ∀ w ∈ S, ∀ mid, entry (sendNotifGo env true sid ws a).st w sid = some mid → B ≤ mid := by
  induction ws generalizing a with
  | nil => exact hP
  | cons w0 ws ih =>
    unfold sendNotifGo
    simp only [Bool.true_or, if_pos]
    by_cases hc : env.createOk w0 sid a.seq
    · rw [if_pos hc]
      refine ih _ ?_
      intro w hwS mid hmid
      by_cases hw : w = w0
      · subst hw
        rw [entry_setEntry_self] at hmid
        cases hmid
        exact hB _
      · rw [entry_setEntry_ne_w _ _ _ _ hw] at hmid
        exact hP _ hwS _ hmid
    · rw [if_neg hc]
      exact ih _ hP

theorem sendNotifGo_true_entry_pos (env : Env) (sid : String) (pre post : List String)
    (w : String) (a : Cyc) (hpost : w ∉ post)
    (hCO : ∀ k, env.createOk w sid k = true) :
    entry (sendNotifGo env true sid (pre ++ w :: post) a).st w sid =
      some (env.msgIdFor (a.seq + pre.length)) := by
  induction pre generalizing a with
  | nil =>
    simp only [List.nil_append]
    unfold sendNotifGo
    simp only [Bool.true_or, if_pos]
    rw [if_pos (hCO a.seq)]
    rw [sendNotifGo_entry_not_mem env true sid _ hpost]
    simp [entry_setEntry_self]
  | cons p pre ih =>
    simp only [List.cons_append]
    unfold sendNotifGo
    simp only [Bool.true_or, if_pos]
    by_cases hc : env.createOk p sid a.seq
    · rw [if_pos hc, ih]
      simp only [List.length_cons]
      congr 2
      omega
    · rw [if_neg hc, ih]
      simp only [List.length_cons]
      congr 2
      omega

/-!  `endMessagesGo` lemmas. -/

theorem endMessagesGo_sameNonDir (env : Env) (sid : String) (ws : List String)
    (a : Cyc) : sameNonDir a.st (endMessagesGo env sid ws a).st := by
  induction ws generalizing a with
  | nil => exact sameNonDir_refl _
  | cons w ws ih =>
    unfold endMessagesGo
    cases h : aGet (wGetD a.st w) sid with
    | none => exact ih _
    | some mid => exact sameNonDir_trans (sameNonDir_delEntry _ _ _) (ih _)

theorem endMessagesGo_seq (env : Env) (sid : String) (ws : List String) (a : Cyc) :
    (endMessagesGo env sid ws a).seq = a.seq := by
  induction ws generalizing a with
  | nil => rfl
  | cons w ws ih =>
    unfold endMessagesGo
    cases h : aGet (wGetD a.st w) sid with
    | none => exact ih _
    | some mid => exact ih _

theorem endMessagesGo_entry_ne_sid (env : Env) {sid sid' : String} (ws : List String)
    (a : Cyc) (w' : String) (h : sid' ≠ sid) :
    entry (endMessagesGo env sid ws a).st w' sid' = entry a.st w' sid' := by
  induction ws generalizing a with
  | nil => rfl
  | cons w ws ih =>
    unfold endMessagesGo
    cases hg : aGet (wGetD a.st w) sid with
    | none => exact ih _
    | some mid =>
      rw [ih _]
      exact entry_delEntry_ne_sid _ _ _ h

theorem endMessagesGo_entry_or_none (env : Env) (sid : String) (ws : List String)
    (a : Cyc) (w : String) :
    entry (endMessagesGo env sid ws a).st w sid = entry a.st w sid ∨
      entry (endMessagesGo env sid ws a).st w sid = none := by
  induction ws generalizing a with
  | nil => exact Or.inl rfl
  | cons w0 ws ih =>
    unfold endMessagesGo
    cases hg : aGet (wGetD a.st w0) sid with
    | none => exact ih _
    | some mid =>
      rcases ih (⟨delEntry a.st w0 sid,
          a.evs ++ [Ev.markEnded w0 sid mid (env.patchStatus w0 mid)], a.seq⟩) with h | h
      · by_cases hw : w = w0
        · subst hw
          rw [h, entry_delEntry_self]
          exact Or.inr rfl
        · rw [h, entry_delEntry_ne_w _ _ _ hw]
          exact Or.inl rfl
      · exact Or.inr h

theorem endMessagesGo_entry_none (env : Env) (sid : String) (ws : List String)
    (a : Cyc) (w : String) (hw : w ∈ ws) :
    entry (endMessagesGo env sid ws a).st w sid = none := by
  induction ws generalizing a with
  | nil => cases hw
  | cons w0 ws ih =>
    unfold endMessagesGo
    rcases List.mem_cons.1 hw with h | h
    · subst h
      cases hg : aGet (wGetD a.st w) sid with
      | none =>
        rcases endMessagesGo_entry_or_none env sid ws a w with h2 | h2
        · rw [h2]
          exact hg
        · exact h2
      | some mid =>
        rcases endMessagesGo_entry_or_none env sid ws
            (⟨delEntry a.st w sid,
              a.evs ++ [Ev.markEnded w sid mid (env.patchStatus w mid)], a.seq⟩) w with h2 | h2
        · rw [h2]
          exact entry_delEntry_self _ _ _
        · exact h2
    · cases hg : aGet (wGetD a.st w0) sid with
      | none => exact ih _ h
      | some mid => exact ih _ h

theorem endMessagesGo_entry_not_mem (env : Env) (sid : String) {ws : List String}
    (a : Cyc) {w : String} (hw : w ∉ ws) :
    entry (endMessagesGo env sid ws a).st w sid = entry a.st w sid := by
  induction ws generalizing a with
  | nil => rfl
  | cons w0 ws ih =>
    have hne : w ≠ w0 := fun hh => hw (hh ▸ List.mem_cons_self w0 ws)
    have hws : w ∉ ws := fun hh => hw (List.mem_cons_of_mem w0 hh)
    unfold endMessagesGo
    cases hg : aGet (wGetD a.st w0) sid with
    | none => exact ih _ hws
    | some mid =>
      rw [ih _ hws]
      exact entry_delEntry_ne_w _ _ _ hne

theorem endMessagesGo_evs (env : Env) (sid : String) (ws : List String) (a : Cyc)
    (hnd : ws.Nodup) :
    (endMessagesGo env sid ws a).evs = a.evs ++ endedTrace env a.st sid ws := by
  induction ws generalizing a with
  | nil => simp [endMessagesGo, endedTrace]
  | cons w ws ih =>
    rw [List.nodup_cons] at hnd
    unfold endMessagesGo
    cases hg : aGet (wGetD a.st w) sid with
    | none =>
      rw [ih _ hnd.2]
      unfold endedTrace
      rw [List.filterMap_cons]
      have : entry a.st w sid = none := hg
      simp [this]
    | some mid =>
      rw [ih _ hnd.2]
      dsimp only
      have hcongr : ∀ w2 ∈ ws, entry (delEntry a.st w sid) w2 sid = entry a.st w2 sid := by
        intro w2 hw2
        have hne2 : w2 ≠ w := fun hh => hnd.1 (hh ▸ hw2)
        exact entry_delEntry_ne_w _ _ _ hne2
      rw [endedTrace_congr env sid hcongr]
      have hE : entry a.st w sid = some mid := hg
      unfold endedTrace
      rw [List.filterMap_cons]
      simp [hE]

theorem endMessagesGo_evs_mem (env : Env) (sid : String) (ws : List String) (a : Cyc) :
    ∀ e ∈ (endMessagesGo env sid ws a).evs,
      e ∈ a.evs ∨ ∃ w mid stt, e = Ev.markEnded w sid mid stt := by
  induction ws generalizing a with
  | nil => exact fun e he => Or.inl he
  | cons w ws ih =>
    intro e he
    unfold endMessagesGo at he
    cases hg : aGet (wGetD a.st w) sid with
    | none =>
      rw [hg] at he
      exact ih _ e he
    | some mid =>
      rw [hg] at he
      rcases ih _ e he with h | h
      · rcases List.mem_append.1 h with h2 | h2
        · exact Or.inl h2
        · rcases List.mem_singleton.1 h2 with rfl
          exact Or.inr ⟨w, mid, env.patchStatus w mid, rfl⟩
      · exact Or.inr h

theorem sendNotifGo_evs_mem (env : Env) (isNew : Bool) (sid : String)
    (ws : List String) (a : Cyc) :
    ∀ e ∈ (sendNotifGo env isNew sid ws a).evs,
      e ∈ a.evs ∨ ∃ w r, e = Ev.create w sid r := by
  induction ws generalizing a with
  | nil => exact fun e he => Or.inl he
  | cons w ws ih =>
    intro e he
    unfold sendNotifGo at he
    by_cases h1 : (isNew || (aGet (wGetD a.st w) sid).isNone) = true
    · rw [if_pos h1] at he
      by_cases hc : env.createOk w sid a.seq
      · rw [if_pos hc] at he
        rcases ih _ e he with h | h
        · rcases List.mem_append.1 h with h2 | h2
          · exact Or.inl h2
          · rcases List.mem_singleton.1 h2 with rfl
            exact Or.inr ⟨w, some (env.msgIdFor a.seq), rfl⟩
        · exact Or.inr h
      · rw [if_neg hc] at he
        rcases ih _ e he with h | h
        · rcases List.mem_append.1 h with h2 | h2
          · exact Or.inl h2
          · rcases List.mem_singleton.1 h2 with rfl
            exact Or.inr ⟨w, none, rfl⟩
        · exact Or.inr h
    · rw [if_neg h1] at he
      exact ih _ e he

/-!  `updateGo` lemmas. -/

theorem updateGo_sameNonDir (cfg : Cfg) (env : Env) (sid : String)
    (ws : List String) (a : Cyc) : sameNonDir a.st (updateGo cfg env sid ws a).st := by
  induction ws generalizing a with
  | nil => exact sameNonDir_refl _
  | cons w ws ih =>
    unfold updateGo
    cases hg : aGet (wGetD a.st w) sid with
    | none => exact ih _
    | some mid =>
      dsimp only
      by_cases h2 : env.patchStatus w mid = 200 ∨ env.patchStatus w mid = 204
      · rw [if_pos h2]
        exact ih _
      · rw [if_neg h2]
        by_cases h4 : env.patchStatus w mid = 404
        · rw [if_pos h4]
          unfold sendNotif
          refine sameNonDir_trans (sameNonDir_delEntry a.st w sid)
            (sameNonDir_trans ?_ (ih _))
          exact sendNotifGo_sameNonDir env true sid cfg.webhooks _
        · rw [if_neg h4]
          exact ih _

theorem updateGo_entry_ne_sid (cfg : Cfg) (env : Env) {sid sid' : String}
    (ws : List String) (a : Cyc) (w' : String) (h : sid' ≠ sid) :
    entry (updateGo cfg env sid ws a).st w' sid' = entry a.st w' sid' := by
  induction ws generalizing a with
  | nil => rfl
  | cons w ws ih =>
    unfold updateGo
    cases hg : aGet (wGetD a.st w) sid with
    | none => exact ih _
    | some mid =>
      dsimp only
      by_cases h2 : env.patchStatus w mid = 200 ∨ env.patchStatus w mid = 204
      · rw [if_pos h2]
        exact ih _
      · rw [if_neg h2]
        by_cases h4 : env.patchStatus w mid = 404
        · rw [if_pos h4]
          unfold sendNotif
          rw [ih _, sendNotifGo_entry_ne_sid env true cfg.webhooks _ w' h]
          exact entry_delEntry_ne_sid _ _ _ h
        · rw [if_neg h4]
          exact ih _

theorem updateGo_evs_extend (cfg : Cfg) (env : Env) (sid : String)
    (ws : List String) (a : Cyc) :
    ∃ t, (updateGo cfg env sid ws a).evs = a.evs ++ t ∧ ∀ e ∈ t, evSid e = sid := by
  induction ws generalizing a with
  | nil => exact ⟨[], by simp [updateGo], by simp⟩
  | cons w ws ih =>
    unfold updateGo
    cases hg : aGet (wGetD a.st w) sid with
    | none => exact ih _
    | some mid =>
      dsimp only
      by_cases h2 : env.patchStatus w mid = 200 ∨ env.patchStatus w mid = 204
      · rw [if_pos h2]
        rcases ih _ with ⟨t, ht, hsh⟩
        refine ⟨Ev.patch w sid mid (env.patchStatus w mid) :: t, by rw [ht]; simp, ?_⟩
        intro e he
        rcases List.mem_cons.1 he with rfl | he2
        · rfl
        · exact hsh e he2
      · rw [if_neg h2]
        by_cases h4 : env.patchStatus w mid = 404
        · rw [if_pos h4]
          unfold sendNotif
          rcases ih _ with ⟨t, ht, hsh⟩
          refine ⟨Ev.patch w sid mid (env.patchStatus w mid) ::
            (createTrace env sid cfg.webhooks a.seq ++ t), ?_, ?_⟩
          · rw [ht, sendNotifGo_true_evs]
            dsimp only
            simp
          · intro e he
            rcases List.mem_cons.1 he with rfl | he2
            · rfl
            · rcases List.mem_append.1 he2 with h5 | h5
              · rcases createTrace_shape env sid cfg.webhooks a.seq e h5 with ⟨w2, r2, rfl⟩
                rfl
              · exact hsh e h5
        · rw [if_neg h4]
          rcases ih _ with ⟨t, ht, hsh⟩
          refine ⟨Ev.patch w sid mid (env.patchStatus w mid) :: t, by rw [ht]; simp, ?_⟩
          intro e he
          rcases List.mem_cons.1 he with rfl | he2
          · rfl
          · exact hsh e he2

theorem updateGo_ok (cfg : Cfg) (env : Env) (sid : String) (ws : List String)
    (a : Cyc)
    (hok : ∀ w ∈ ws, ∀ mid, entry a.st w sid = some mid →
      env.patchStatus w mid = 200 ∨ env.patchStatus w mid = 204) :
    updateGo cfg env sid ws a =
      { a with evs := a.evs ++ patchTrace env a.st sid ws } := by
  induction ws generalizing a with
  | nil => simp [updateGo, patchTrace]
  | cons w ws ih =>
    unfold updateGo
    cases hg : aGet (wGetD a.st w) sid with
    | none =>
      rw [ih]
      · unfold patchTrace
        rw [List.filterMap_cons]
        have hE : entry a.st w sid = none := hg
        simp [hE]
      · exact fun w2 hw2 => hok w2 (List.mem_cons_of_mem w hw2)
    | some mid =>
      dsimp only
      have hE : entry a.st w sid = some mid := hg
      have h2 := hok w (List.mem_cons_self w ws) mid hE
      rw [if_pos h2, ih]
      · unfold patchTrace
        rw [List.filterMap_cons]
        simp [hE]
      · exact fun w2 hw2 => hok w2 (List.mem_cons_of_mem w hw2)

theorem updateGo_evs_mem (cfg : Cfg) (env : Env) (sid : String)
    (ws : List String) (a : Cyc) :
    ∀ e ∈ (updateGo cfg env sid ws a).evs, e ∈ a.evs ∨ evSid e = sid := by
  induction ws generalizing a with
  | nil => exact fun e he => Or.inl he
  | cons w ws ih =>
    intro e he
    unfold updateGo at he
    cases hg : aGet (wGetD a.st w) sid with
    | none =>
      rw [hg] at he
      exact ih _ e he
    | some mid =>
      rw [hg] at he
      dsimp only at he
      by_cases h2 : env.patchStatus w mid = 200 ∨ env.patchStatus w mid = 204
      · rw [if_pos h2] at he
        rcases ih _ e he with h | h
        · rcases List.mem_append.1 h with h3 | h3
          · exact Or.inl h3
          · rcases List.mem_singleton.1 h3 with rfl
            exact Or.inr rfl
        · exact Or.inr h
      · rw [if_neg h2] at he
        by_cases h4 : env.patchStatus w mid = 404
        · rw [if_pos h4] at he
          rcases ih _ e he with h | h
          · rcases sendNotifGo_evs_mem env true sid cfg.webhooks _ e h with h5 | h5
            · rcases List.mem_append.1 h5 with h6 | h6
              · exact Or.inl h6
              · rcases List.mem_singleton.1 h6 with rfl
                exact Or.inr rfl
            · rcases h5 with ⟨w2, r, rfl⟩
              exact Or.inr rfl
          · exact Or.inr h
        · rw [if_neg h4] at he
          rcases ih _ e he with h | h
          · rcases List.mem_append.1 h with h3 | h3
            · exact Or.inl h3
            · rcases List.mem_singleton.1 h3 with rfl
              exact Or.inr rfl
          · exact Or.inr h

theorem updateGo_evs_mono (cfg : Cfg) (env : Env) (sid : String)
    (ws : List String) (a : Cyc) {e : Ev} (h : e ∈ a.evs) :
    e ∈ (updateGo cfg env sid ws a).evs := by
  rcases updateGo_evs_extend cfg env sid ws a with ⟨t, ht, _⟩
  rw [ht]
  exact List.mem_append_left _ h

theorem createTrace_no_patch (env : Env) (sid : String) (ws : List String)
    (k : Nat) (w2 sid2 : String) (mid stt : Nat) :
    Ev.patch w2 sid2 mid stt ∉ createTrace env sid ws k := by
  intro hmem
  rcases createTrace_shape env sid ws k _ hmem with ⟨w, r, hEq⟩
  cases hEq

theorem updateGo_patch_attempted (cfg : Cfg) (env : Env) (sid : String)
    (ws : List String) (a : Cyc) :
    ∀ w ∈ ws, (entry a.st w sid).isSome →
      ∃ mid stt, Ev.patch w sid mid stt ∈ (updateGo cfg env sid ws a).evs := by
  induction ws generalizing a with
  | nil => intro w hw
           cases hw
  | cons w0 ws ih =>
    intro w hw hsome
    by_cases hww : w = w0
    · subst hww
      unfold updateGo
      cases hg : aGet (wGetD a.st w) sid with
      | none =>
        rw [show entry a.st w sid = none from hg] at hsome
        cases hsome
      | some mid =>
        dsimp only
        refine ⟨mid, env.patchStatus w mid, ?_⟩
        have hbase : Ev.patch w sid mid (env.patchStatus w mid) ∈
            a.evs ++ [Ev.patch w sid mid (env.patchStatus w mid)] := by simp
        by_cases h2 : env.patchStatus w mid = 200 ∨ env.patchStatus w mid = 204
        · rw [if_pos h2]
          exact updateGo_evs_mono cfg env sid ws _ hbase
        · rw [if_neg h2]
          by_cases h4 : env.patchStatus w mid = 404
          · rw [if_pos h4]
            unfold sendNotif
            refine updateGo_evs_mono cfg env sid ws _ ?_
            rw [sendNotifGo_true_evs]
            exact List.mem_append_left _ hbase
          · rw [if_neg h4]
            exact updateGo_evs_mono cfg env sid ws _ hbase
    · have hwtl : w ∈ ws := by
        rcases List.mem_cons.1 hw with h | h
        · exact absurd h hww
        · exact h
      unfold updateGo
      cases hg : aGet (wGetD a.st w0) sid with
      | none => exact ih _ w hwtl hsome
      | some mid =>
        dsimp only
        by_cases h2 : env.patchStatus w0 mid = 200 ∨ env.patchStatus w0 mid = 204
        · rw [if_pos h2]
          exact ih _ w hwtl hsome
        · rw [if_neg h2]
          by_cases h4 : env.patchStatus w0 mid = 404
          · rw [if_pos h4]
            unfold sendNotif
            refine ih _ w hwtl ?_
            refine sendNotifGo_true_isSome env sid cfg.webhooks _ w ?_
            have : entry (delEntry a.st w0 sid) w sid = entry a.st w sid :=
              entry_delEntry_ne_w _ _ _ hww
            rw [show entry (delEntry a.st w0 sid) w sid = entry a.st w sid from this]
            exact hsome
          · rw [if_neg h4]
            exact ih _ w hwtl hsome

theorem updateGo_bound (cfg : Cfg) (env : Env) (sid : String) (B : Nat)
    (S : List String) (ws : List String) (a : Cyc)
    (hws : ∀ w ∈ ws, w ∈ S)
    (hB : ∀ k, B ≤ env.msgIdFor k)
    (hP : ∀ w ∈ S, ∀ mid, entry a.st w sid = some mid → B ≤ mid) :
    (∀ w ∈ S, ∀ mid, entry (updateGo cfg env sid ws a).st w sid = some mid → B ≤ mid) ∧
    (∀ w2 sid2 mid stt, Ev.patch w2 sid2 mid stt ∈ (updateGo cfg env sid ws a).evs →
      Ev.patch w2 sid2 mid stt ∈ a.evs ∨ B ≤ mid) := by
  induction ws generalizing a with
  | nil => exact ⟨hP, fun _ _ _ _ h => Or.inl h⟩
  | cons w0 ws ih =>
    have hws2 : ∀ w ∈ ws, w ∈ S := fun w hw => hws w (List.mem_cons_of_mem w0 hw)
    have hw0 : w0 ∈ S := hws w0 (List.mem_cons_self w0 ws)
    unfold updateGo
    cases hg : aGet (wGetD a.st w0) sid with
    | none => exact ih a hws2 hP
    | some mid0 =>
      dsimp only
      have hmid0 : B ≤ mid0 := hP w0 hw0 mid0 hg
      have hsplit : ∀ (t : Cyc),
          t.evs = a.evs ++ [Ev.patch w0 sid mid0 (env.patchStatus w0 mid0)] →
          (∀ w2 sid2 mid stt, Ev.patch w2 sid2 mid stt ∈ t.evs →
            Ev.patch w2 sid2 mid stt ∈ a.evs ∨ B ≤ mid) := by
        intro t ht w2 sid2 mid stt hmem
        rw [ht] at hmem
        rcases List.mem_append.1 hmem with h | h
        · exact Or.inl h
        · rcases List.mem_singleton.1 h with hEq
          cases hEq
          exact Or.inr hmid0
      by_cases h2 : env.patchStatus w0 mid0 = 200 ∨ env.patchStatus w0 mid0 = 204
      · rw [if_pos h2]
        rcases ih (⟨a.st, a.evs ++ [Ev.patch w0 sid mid0 (env.patchStatus w0 mid0)],
            a.seq⟩) hws2 hP with ⟨ih1, ih2⟩
        refine ⟨ih1, fun w2 sid2 mid stt hmem => ?_⟩
        rcases ih2 w2 sid2 mid stt hmem with h | h
        · exact hsplit _ rfl w2 sid2 mid stt h
        · exact Or.inr h
      · rw [if_neg h2]
        by_cases h4 : env.patchStatus w0 mid0 = 404
        · rw [if_pos h4]
          unfold sendNotif
          have hPdel : ∀ w ∈ S, ∀ mid, entry (delEntry a.st w0 sid) w sid = some mid →
              B ≤ mid := by
            intro w hwS mid hmid
            by_cases hw : w = w0
            · subst hw
              rw [entry_delEntry_self] at hmid
              cases hmid
            · rw [entry_delEntry_ne_w _ _ _ hw] at hmid
              exact hP _ hwS _ hmid
          have hPc := sendNotifGo_true_bound env sid cfg.webhooks
            (⟨delEntry a.st w0 sid,
              a.evs ++ [Ev.patch w0 sid mid0 (env.patchStatus w0 mid0)], a.seq⟩) B S hB hPdel
          rcases ih _ hws2 hPc with ⟨ih1, ih2⟩
          refine ⟨ih1, fun w2 sid2 mid stt hmem => ?_⟩
          rcases ih2 w2 sid2 mid stt hmem with h | h
          · rw [sendNotifGo_true_evs] at h
            rcases List.mem_append.1 h with h5 | h5
            · exact hsplit _ rfl w2 sid2 mid stt h5
            · exact absurd h5 (createTrace_no_patch env sid cfg.webhooks _ w2 sid2 mid stt)
          · exact Or.inr h
        · rw [if_neg h4]
          rcases ih (⟨a.st, a.evs ++ [Ev.patch w0 sid mid0 (env.patchStatus w0 mid0)],
              a.seq⟩) hws2 hP with ⟨ih1, ih2⟩
          refine ⟨ih1, fun w2 sid2 mid stt hmem => ?_⟩
          rcases ih2 w2 sid2 mid stt hmem with h | h
          · exact hsplit _ rfl w2 sid2 mid stt h
          · exact Or.inr h

/-!  `countPhase` lemmas. -/

theorem countPhase_st (cfg : Cfg) (env : Env) (s : Session) (a : Cyc) :
    (countPhase cfg env s a).st = a.st := by
  unfold countPhase
  dsimp only
  split
  · rfl
  · rfl

theorem countPhase_seq (cfg : Cfg) (env : Env) (s : Session) (a : Cyc) :
    (countPhase cfg env s a).seq = a.seq := by
  unfold countPhase
  dsimp only
  split
  · rfl
  · rfl

theorem countPhase_evs_extend (cfg : Cfg) (env : Env) (s : Session) (a : Cyc) :
    ∃ t, (countPhase cfg env s a).evs = a.evs ++ t ∧
      ∀ e ∈ t, ∃ w c, e = Ev.countNotify w s.id c := by
  unfold countPhase
  dsimp only
  split
  · exact ⟨[], by simp, by simp⟩
  · refine ⟨_, rfl, ?_⟩
    intro e he
    rcases List.mem_map.1 he with ⟨w, _, rfl⟩
    exact ⟨w, _, rfl⟩

/-!  Non-interference: processing one session leaves every other
session's tracked data and events alone. -/

theorem untouched_refl (sid : String) (a : Cyc) : untouched sid a a :=
  ⟨rfl, rfl, rfl, rfl, fun _ => rfl, ⟨[], by simp, by simp⟩⟩

theorem untouched_trans {sid : String} {a b c : Cyc} (h1 : untouched sid a b)
    (h2 : untouched sid b c) : untouched sid a c := by
  obtain ⟨a1, b1, c1, d1, e1, t1, he1, hs1⟩ := h1
  obtain ⟨a2, b2, c2, d2, e2, t2, he2, hs2⟩ := h2
  refine ⟨a2.trans a1, b2.trans b1, c2.trans c1, d2.trans d1,
    fun w => (e2 w).trans (e1 w), t1 ++ t2, ?_, ?_⟩
  · rw [he2, he1, List.append_assoc]
  · intro e he
    rcases List.mem_append.1 he with h | h
    · exact hs1 e h
    · exact hs2 e h

theorem untouched_of_sameNonDir {sid : String} {a b : Cyc}
    (h : sameNonDir a.st b.st)
    (hE : ∀ w, entry b.st w sid = entry a.st w sid)
    (hEv : ∃ t, b.evs = a.evs ++ t ∧ ∀ e ∈ t, evSid e ≠ sid) : untouched sid a b := by
  obtain ⟨h1, h2, h3, h4, _⟩ := h
  exact ⟨by rw [h1], by rw [h2], by rw [h3], by rw [h4], hE, hEv⟩

theorem sendNotifGo_untouched (env : Env) (sid sidOwn : String)
    (ws : List String) (a : Cyc) (h : sid ≠ sidOwn) :
    untouched sid a (sendNotifGo env true sidOwn ws a) := by
  refine untouched_of_sameNonDir (sendNotifGo_sameNonDir env true sidOwn ws a)
    (fun w => sendNotifGo_entry_ne_sid env true ws a w h) ?_
  refine ⟨createTrace env sidOwn ws a.seq, sendNotifGo_true_evs env sidOwn ws a, ?_⟩
  intro e he
  rcases createTrace_shape env sidOwn ws a.seq e he with ⟨w, r, rfl⟩
  simpa [evSid] using h.symm

theorem endMessagesGo_evs_extend (env : Env) (sidOwn : String) (ws : List String)
    (a : Cyc) :
    ∃ t, (endMessagesGo env sidOwn ws a).evs = a.evs ++ t ∧
      ∀ e ∈ t, ∃ w mid stt, e = Ev.markEnded w sidOwn mid stt := by
  induction ws generalizing a with
  | nil => exact ⟨[], by simp [endMessagesGo], by simp⟩
  | cons w ws ih =>
    unfold endMessagesGo
    cases hg : aGet (wGetD a.st w) sidOwn with
    | none => exact ih _
    | some mid =>
      rcases ih (⟨delEntry a.st w sidOwn,
          a.evs ++ [Ev.markEnded w sidOwn mid (env.patchStatus w mid)], a.seq⟩)
        with ⟨t, ht, hsh⟩
      refine ⟨Ev.markEnded w sidOwn mid (env.patchStatus w mid) :: t,
        by rw [ht]; simp, ?_⟩
      intro e he
      rcases List.mem_cons.1 he with rfl | he2
      · exact ⟨w, mid, env.patchStatus w mid, rfl⟩
      · exact hsh e he2

theorem endMessagesGo_untouched (env : Env) (sid sidOwn : String)
    (ws : List String) (a : Cyc) (h : sid ≠ sidOwn) :
    untouched sid a (endMessagesGo env sidOwn ws a) := by
  refine untouched_of_sameNonDir (endMessagesGo_sameNonDir env sidOwn ws a)
    (fun w => endMessagesGo_entry_ne_sid env ws a w h) ?_
  rcases endMessagesGo_evs_extend env sidOwn ws a with ⟨t, ht, hsh⟩
  refine ⟨t, ht, fun e he => ?_⟩
  rcases hsh e he with ⟨w, mid, stt, rfl⟩
  simpa [evSid] using h.symm

theorem countPhase_untouched (cfg : Cfg) (env : Env) (s : Session) (a : Cyc)
    (sid : String) (h : sid ≠ s.id) :
    untouched sid a (countPhase cfg env s a) := by
  refine untouched_of_sameNonDir ?_ (fun w => by rw [countPhase_st]) ?_
  · rw [countPhase_st]
    exact sameNonDir_refl _
  · rcases countPhase_evs_extend cfg env s a with ⟨t, ht, hshape⟩
    refine ⟨t, ht, fun e he => ?_⟩
    rcases hshape e he with ⟨w, c, rfl⟩
    simpa [evSid] using h.symm

theorem updateGo_untouched (cfg : Cfg) (env : Env) (sid sidOwn : String)
    (ws : List String) (a : Cyc) (h : sid ≠ sidOwn) :
    untouched sid a (updateGo cfg env sidOwn ws a) := by
  refine untouched_of_sameNonDir (updateGo_sameNonDir cfg env sidOwn ws a)
    (fun w => updateGo_entry_ne_sid cfg env ws a w h) ?_
  rcases updateGo_evs_extend cfg env sidOwn ws a with ⟨t, ht, hsh⟩
  exact ⟨t, ht, fun e he => (hsh e he) ▸ h.symm⟩

/-!  `markEndedSession` lemmas. -/

theorem markEndedSession_evs (cfg : Cfg) (env : Env) (sid : String) (a : Cyc)
    (hnd : cfg.webhooks.Nodup) :
    (markEndedSession cfg env sid a).evs =
      a.evs ++ endedTrace env a.st sid cfg.webhooks := by
  unfold markEndedSession endMessages
  exact endMessagesGo_evs env sid cfg.webhooks a hnd

theorem markEndedSession_entry_eq (cfg : Cfg) (env : Env) (sid : String) (a : Cyc)
    (w sid' : String) :
    entry (markEndedSession cfg env sid a).st w sid' =
      entry (endMessagesGo env sid cfg.webhooks a).st w sid' := rfl

theorem markEndedSession_entry_none (cfg : Cfg) (env : Env) (sid : String)
    (a : Cyc) (w : String) (hw : w ∈ cfg.webhooks) :
    entry (markEndedSession cfg env sid a).st w sid = none := by
  rw [markEndedSession_entry_eq]
  exact endMessagesGo_entry_none env sid cfg.webhooks a w hw

theorem markEndedSession_active_self (cfg : Cfg) (env : Env) (sid : String)
    (a : Cyc) : aGet (markEndedSession cfg env sid a).st.active sid = none := by
  unfold markEndedSession
  exact aGet_aDel_self _ _

theorem markEndedSession_playerCounts_self (cfg : Cfg) (env : Env) (sid : String)
    (a : Cyc) : aGet (markEndedSession cfg env sid a).st.playerCounts sid = none := by
  unfold markEndedSession
  exact aGet_aDel_self _ _

theorem markEndedSession_lastKnownStates_self (cfg : Cfg) (env : Env) (sid : String)
    (a : Cyc) : aGet (markEndedSession cfg env sid a).st.lastKnownStates sid = none := by
  unfold markEndedSession
  exact aGet_aDel_self _ _

theorem markEndedSession_lastApiResponses_self (cfg : Cfg) (env : Env) (sid : String)
    (a : Cyc) : aGet (markEndedSession cfg env sid a).st.lastApiResponses sid = none := by
  unfold markEndedSession
  exact aGet_aDel_self _ _

theorem markEndedSession_untouched (cfg : Cfg) (env : Env) (sid sidOwn : String)
    (a : Cyc) (h : sid ≠ sidOwn) :
    untouched sid a (markEndedSession cfg env sidOwn a) := by
  have h1 : untouched sid a (endMessagesGo env sidOwn cfg.webhooks a) :=
    endMessagesGo_untouched env sid sidOwn cfg.webhooks a h
  obtain ⟨u1, u2, u3, u4, u5, u6⟩ := h1
  unfold markEndedSession endMessages
  exact ⟨(aGet_aDel_ne _ h).trans u1, (aGet_aDel_ne _ h).trans u2,
    (aGet_aDel_ne _ h).trans u3, (aGet_aDel_ne _ h).trans u4, u5, u6⟩

/-!  `handleSession` lemmas. -/

theorem handleSession_skip_noid (cfg : Cfg) (env : Env) (api : ApiResp) (a : Cyc)
    (s : Session) (h : s.id = "") : handleSession cfg env api a s = a := by
  unfold handleSession
  rw [if_pos h]

theorem handleSession_skip_irrelevant (cfg : Cfg) (env : Env) (api : ApiResp)
    (a : Cyc) (s : Session) (h1 : ¬ s.id = "")
    (h : hasMonitoredPlayer cfg.monitored s = false) :
    handleSession cfg env api a s = a := by
  unfold handleSession
  rw [if_neg h1, if_pos (by simp [h])]

theorem handleSession_finalize_untouched (sid : String) (api : ApiResp)
    (s : Session) (a : Cyc) (h : sid ≠ s.id) (b : Cyc) (hb : untouched sid a b) :
    untouched sid a
      { b with st := { b.st with
          active := aSet b.st.active s.id s,
          playerCounts := aSet b.st.playerCounts s.id s.playerCount,
          lastKnownStates := aSet b.st.lastKnownStates s.id s.state,
          lastApiResponses := aSet b.st.lastApiResponses s.id api } } := by
  obtain ⟨u1, u2, u3, u4, u5, u6⟩ := hb
  exact ⟨(aGet_aSet_ne _ _ h).trans u1, (aGet_aSet_ne _ _ h).trans u2,
    (aGet_aSet_ne _ _ h).trans u3, (aGet_aSet_ne _ _ h).trans u4, u5, u6⟩

theorem handleSession_untouched (cfg : Cfg) (env : Env) (api : ApiResp) (a : Cyc)
    (s : Session) (sid : String) (h : sid ≠ s.id) :
    untouched sid a (handleSession cfg env api a s) := by
  unfold handleSession
  by_cases h1 : s.id = ""
  · rw [if_pos h1]
    exact untouched_refl _ _
  · rw [if_neg h1]
    by_cases h2 : ¬ (hasMonitoredPlayer cfg.monitored s = true)
    · rw [if_pos h2]
      exact untouched_refl _ _
    · rw [if_neg h2]
      dsimp only
      refine handleSession_finalize_untouched sid api s a h _ ?_
      by_cases hnn : ((aGet a.st.active s.id).isNone ||
          !(cfg.webhooks.any (fun w => (aGet (wGetD a.st w) s.id).isSome))) = true
      · rw [if_pos hnn]
        exact sendNotifGo_untouched env sid s.id cfg.webhooks a h
      · rw [if_neg hnn]
        by_cases h3 : ((aGet a.st.active s.id).isSome) = true
        · rw [if_pos h3]
          refine untouched_trans (b := if aGet a.st.lastKnownStates s.id =
              some (some "InGame") ∧ s.state = some "PreGame"
            then sendNotif cfg env true s.id (endMessages cfg env s.id a) else a) ?_ ?_
          · by_cases h5 : aGet a.st.lastKnownStates s.id = some (some "InGame") ∧
                s.state = some "PreGame"
            · rw [if_pos h5]
              unfold sendNotif endMessages
              exact untouched_trans (endMessagesGo_untouched env sid s.id cfg.webhooks a h)
                (sendNotifGo_untouched env sid s.id cfg.webhooks _ h)
            · rw [if_neg h5]
              exact untouched_refl _ _
          · refine untouched_trans (countPhase_untouched cfg env s _ sid h) ?_
            exact updateGo_untouched cfg env sid s.id cfg.webhooks _ h
        · rw [if_neg h3]
          exact untouched_refl _ _

theorem runEnded_untouched (cfg : Cfg) (env : Env) (currentIds : List String)
    (sids : List String) (a : Cyc) (sid : String) (h : ∀ k ∈ sids, k ≠ sid) :
    untouched sid a (runEnded cfg env currentIds sids a) := by
  induction sids generalizing a with
  | nil => exact untouched_refl _ _
  | cons k sids ih =>
    unfold runEnded
    by_cases hc : (currentIds.contains k) = true
    · rw [if_pos hc]
      exact ih _ (fun k2 hk2 => h k2 (List.mem_cons_of_mem k hk2))
    · rw [if_neg hc]
      refine untouched_trans ?_ (ih _ (fun k2 hk2 => h k2 (List.mem_cons_of_mem k hk2)))
      exact markEndedSession_untouched cfg env sid k a
        (fun hh => h k (List.mem_cons_self k sids) hh.symm)

theorem runSessions_untouched (cfg : Cfg) (env : Env) (api : ApiResp)
    (ss : List Session) (a : Cyc) (sid : String) (h : ∀ s ∈ ss, s.id ≠ sid) :
    untouched sid a (runSessions cfg env api ss a) := by
  induction ss generalizing a with
  | nil => exact untouched_refl _ _
  | cons s ss ih =>
    unfold runSessions
    refine untouched_trans ?_ (ih _ (fun s2 hs2 => h s2 (List.mem_cons_of_mem s hs2)))
    exact handleSession_untouched cfg env api a s sid
      (fun hh => h s (List.mem_cons_self s ss) hh.symm)

theorem handleSession_new_eq (cfg : Cfg) (env : Env) (api : ApiResp) (a : Cyc)
    (s : Session) (h1 : ¬ s.id = "")
    (h2 : hasMonitoredPlayer cfg.monitored s = true)
    (hN : ((aGet a.st.active s.id).isNone ||
      !(cfg.webhooks.any (fun w => (aGet (wGetD a.st w) s.id).isSome))) = true) :
    handleSession cfg env api a s =
      (let a1 := sendNotif cfg env true s.id a
       { a1 with st := { a1.st with
          active := aSet a1.st.active s.id s,
          playerCounts := aSet a1.st.playerCounts s.id s.playerCount,
          lastKnownStates := aSet a1.st.lastKnownStates s.id s.state,
          lastApiResponses := aSet a1.st.lastApiResponses s.id api } }) := by
  unfold handleSession
  rw [if_neg h1, if_neg (by simp [h2])]
  dsimp only
  rw [if_pos hN]

theorem handleSession_elif_eq (cfg : Cfg) (env : Env) (api : ApiResp) (a : Cyc)
    (s : Session) (h1 : ¬ s.id = "")
    (h2 : hasMonitoredPlayer cfg.monitored s = true)
    (h3 : (aGet a.st.active s.id).isSome = true)
    (h4 : cfg.webhooks.any (fun w => (aGet (wGetD a.st w) s.id).isSome) = true) :
    handleSession cfg env api a s =
      (let a2 := if aGet a.st.lastKnownStates s.id = some (some "InGame") ∧
            s.state = some "PreGame"
          then sendNotif cfg env true s.id (endMessages cfg env s.id a) else a
       let a3 := countPhase cfg env s a2
       let a1 := updateGo cfg env s.id cfg.webhooks a3
       { a1 with st := { a1.st with
          active := aSet a1.st.active s.id s,
          playerCounts := aSet a1.st.playerCounts s.id s.playerCount,
          lastKnownStates := aSet a1.st.lastKnownStates s.id s.state,
          lastApiResponses := aSet a1.st.lastApiResponses s.id api } }) := by
  unfold handleSession
  rw [if_neg h1, if_neg (by simp [h2])]
  dsimp only
  have hnn : ((aGet a.st.active s.id).isNone ||
      !(cfg.webhooks.any (fun w => (aGet (wGetD a.st w) s.id).isSome))) = false := by
    simp only [Bool.or_eq_false_iff, Bool.not_eq_true']
    constructor
    · rw [Option.isNone_eq_false_iff]
      exact h3
    · rw [h4]
      rfl
  rw [if_neg (by simp [hnn]), if_pos h3]

theorem runEnded_all_present (cfg : Cfg) (env : Env) (currentIds : List String)
    (sids : List String) (a : Cyc)
    (h : ∀ k ∈ sids, currentIds.contains k = true) :
    runEnded cfg env currentIds sids a = a := by
  induction sids with
  | nil => rfl
  | cons k sids ih =>
    unfold runEnded
    rw [if_pos (h k (List.mem_cons_self k sids))]
    exact ih (fun k2 hk2 => h k2 (List.mem_cons_of_mem k hk2))

theorem runSessions_singleton (cfg : Cfg) (env : Env) (api : ApiResp) (a : Cyc)
    (s : Session) : runSessions cfg env api [s] a = handleSession cfg env api a s := rfl

theorem checkSessions_none (cfg : Cfg) (env : Env) (st : St) :
    checkSessions cfg env st none = (st, []) := rfl

/-- Bool helper: a three-way disjunction equals the corresponding
precedence chain. -/
theorem bool_or3_cond (x y z : Bool) : (x || y || z) = cond x true (cond y true z) := by
  cases x <;> cases y <;> cases z <;> rfl

/-- C10: the relevance predicate (`has_monitored_player`) is exactly:
host = first element of Players; precedence Steam id, else GOG id,
else plain name, each against the monitored list; and in all cases a
non-empty player list, name not 'test' case-insensitively, and game
mode exactly 'STRAT' are required. -/
theorem c10_relevance_predicate (monitored : List String) (s : Session) :
    hasMonitoredPlayer monitored s = specRelevant monitored s := by
  unfold hasMonitoredPlayer specRelevant
  cases hps : s.players with
  | nil =>
    by_cases ht : pyLower s.name = "test" <;>
      by_cases hm : ¬ s.gameMode = some "STRAT" <;> simp [ht, hm]
  | cons host rest =>
    by_cases ht : pyLower s.name = "test"
    · simp [ht]
    · by_cases hm : ¬ s.gameMode = some "STRAT"
      · simp [ht, hm]
      · simp only [if_neg ht, if_neg hm]
        rw [bool_or3_cond]

/-- C7: if the fetch fails (non-200 status, network error, or
malformed JSON), the cycle produces no notification intents and every
piece of tracked state is left unchanged for the next cycle. -/
theorem c7_fetch_failure_no_effect (cfg : Cfg) (env : Env) (st : St)
    (o : FetchOutcome) (h : fetchResult o = none) :
    checkSessions cfg env st (fetchResult o) = (st, []) := by
  rw [h]
  exact checkSessions_none cfg env st

/-- Witness for C7 at a concrete failed fetch. -/
theorem c7_fetch_failure_no_effect_witness :
    fetchResult FetchOutcome.netError = none ∧
    checkSessions cfg2 envA stA (fetchResult FetchOutcome.netError) = (stA, []) ∧
    fetchResult (FetchOutcome.httpError 500) = none ∧
    checkSessions cfg2 envA stA (fetchResult (FetchOutcome.httpError 500)) = (stA, []) ∧
    fetchResult FetchOutcome.parseError = none ∧
    checkSessions cfg2 envA stA (fetchResult FetchOutcome.parseError) = (stA, []) :=
  ⟨rfl, c7_fetch_failure_no_effect cfg2 envA stA FetchOutcome.netError rfl,
   rfl, c7_fetch_failure_no_effect cfg2 envA stA (FetchOutcome.httpError 500) rfl,
   rfl, c7_fetch_failure_no_effect cfg2 envA stA FetchOutcome.parseError rfl⟩

/-- Evaluation of the unchanged-session cycle. -/
theorem run_unchanged_evs :
    (checkSessions cfg2 envA stA (some apiA)).2 =
      [Ev.patch "D1" "A" 100 200, Ev.patch "D2" "A" 200 200] := rfl

/-- Evaluation of the 404-recovery cycle: trace. -/
theorem run_notfound_evs :
    (checkSessions cfg2 env404 stA (some apiA)).2 =
      [Ev.patch "D1" "A" 100 404, Ev.create "D1" "A" (some 1000),
       Ev.create "D2" "A" (some 1001), Ev.patch "D2" "A" 1001 200] := rfl

/-- Evaluation of the 404-recovery cycle: final directory entry at D1. -/
theorem run_notfound_entry_d1 :
    entry (checkSessions cfg2 env404 stA (some apiA)).1 "D1" "A" = some 1000 := rfl

/-- Evaluation of the 404-recovery cycle: final directory entry at D2. -/
theorem run_notfound_entry_d2 :
    entry (checkSessions cfg2 env404 stA (some apiA)).1 "D2" "A" = some 1001 := rfl

/-- Evaluation of the present-but-irrelevant cycle: trace and state. -/
theorem run_testname_facts :
    (checkSessions cfg2 envA stA (some apiTest)).2 = [] ∧
    aGet (checkSessions cfg2 envA stA (some apiTest)).1.active "A" = some sessA ∧
    entry (checkSessions cfg2 envA stA (some apiTest)).1 "D1" "A" = some 100 ∧
    entry (checkSessions cfg2 envA stA (some apiTest)).1 "D2" "A" = some 200 :=
  have h1 : (checkSessions cfg2 envA stA (some apiTest)).2 = [] := rfl
  have h2 : aGet (checkSessions cfg2 envA stA (some apiTest)).1.active "A" = some sessA := rfl
  have h3 : entry (checkSessions cfg2 envA stA (some apiTest)).1 "D1" "A" = some 100 := rfl
  have h4 : entry (checkSessions cfg2 envA stA (some apiTest)).1 "D2" "A" = some 200 := rfl
  ⟨h1, h2, h3, h4⟩

/-- Evaluation of the simultaneous-join cycle under the two iteration
orders. -/
theorem run_join_evs :
    (checkSessions cfg2 envA stA (some apiJ)).2 =
      [Ev.countNotify "D1" "A" "4/10 (Carol joined)",
       Ev.countNotify "D2" "A" "4/10 (Carol joined)",
       Ev.patch "D1" "A" 100 200, Ev.patch "D2" "A" 200 200] := rfl

/-- Evaluation of the simultaneous-join cycle, reversed set order. -/
theorem run_join_evs_rev :
    (checkSessions cfg2 env9r stA (some apiJ)).2 =
      [Ev.countNotify "D1" "A" "4/10 (Dave joined)",
       Ev.countNotify "D2" "A" "4/10 (Dave joined)",
       Ev.patch "D1" "A" 100 200, Ev.patch "D2" "A" 200 200] := rfl

/-- C2 counterexample: session `A` is tracked with exactly the same
content the snapshot reports (same players, state, count, map), yet
the cycle still emits one Patch intent per destination — not zero
intents as claimed. -/
theorem c2_counterexample :
    aGet stA.active "A" = some sessA ∧
    aGet stA.playerCounts "A" = some sessA.playerCount ∧
    aGet stA.lastKnownStates "A" = some sessA.state ∧
    apiA.sessions = [sessA] ∧
    (checkSessions cfg2 envA stA (some apiA)).2 =
      [Ev.patch "D1" "A" 100 200, Ev.patch "D2" "A" 200 200] :=
  ⟨rfl, rfl, rfl, rfl, run_unchanged_evs⟩

/-- C1 counterexample: with one live external message at `D2` for
session `A` (at most one per pair), a cycle in which `D1`'s patch
returns 404 re-creates messages at every destination, ending the cycle
with two live external messages for the pair `(A, D2)`. -/
theorem c1_counterexample :
    liveCount worldA "D1" "A" ≤ 1 ∧ liveCount worldA "D2" "A" ≤ 1 ∧
    liveCount (((checkSessions cfg2 env404 stA (some apiA)).2).foldl applyEv worldA)
      "D2" "A" = 2 := by
  refine ⟨by decide, by decide, ?_⟩
  rw [run_notfound_evs]
  decide

/-- C3 counterexample: the Patch for `(A, D1)` fails with 404, and in
the same cycle replacement messages are created — at `D1` and also at
`D2` — and the directory entry for `(A, D1)` ends the cycle holding
the replacement id, contradicting "no replacement message is created
within the same cycle". -/
theorem c3_counterexample :
    entry stA "D1" "A" = some 100 ∧
    env404.patchStatus "D1" 100 = 404 ∧
    (checkSessions cfg2 env404 stA (some apiA)).2 =
      [Ev.patch "D1" "A" 100 404, Ev.create "D1" "A" (some 1000),
       Ev.create "D2" "A" (some 1001), Ev.patch "D2" "A" 1001 200] ∧
    entry (checkSessions cfg2 env404 stA (some apiA)).1 "D1" "A" = some 1000 ∧
    entry (checkSessions cfg2 env404 stA (some apiA)).1 "D2" "A" = some 1001 :=
  ⟨rfl, rfl, run_notfound_evs, run_notfound_entry_d1, run_notfound_entry_d2⟩

/-- C4 counterexample: session `A` is still present in the snapshot
but renamed "Test", so it no longer satisfies the relevance predicate;
the claim demands a MarkEnded per live destination and removal of the
Tracked Session Record, but the cycle emits no event at all and keeps
the record and both directory entries. -/
theorem c4_counterexample :
    aGet stA.active "A" = some sessA ∧
    sessTest.id = "A" ∧
    apiTest.sessions = [sessTest] ∧
    hasMonitoredPlayer cfg2.monitored sessTest = false ∧
    entry stA "D1" "A" = some 100 ∧
    entry stA "D2" "A" = some 200 ∧
    (checkSessions cfg2 envA stA (some apiTest)).2 = [] ∧
    aGet (checkSessions cfg2 envA stA (some apiTest)).1.active "A" = some sessA ∧
    entry (checkSessions cfg2 envA stA (some apiTest)).1 "D1" "A" = some 100 ∧
    entry (checkSessions cfg2 envA stA (some apiTest)).1 "D2" "A" = some 200 :=
  ⟨rfl, rfl, rfl, rfl, rfl, rfl, run_testname_facts.1, run_testname_facts.2.1,
   run_testname_facts.2.2.1, run_testname_facts.2.2.2⟩

/-- C9 counterexample: two players (Carol and Dave) join at once; two
environments identical except for the set-iteration order produce
different joined-player summaries for the same pair of snapshots, so
the summary is not a deterministic function of the snapshots. -/
theorem c9_counterexample :
    env9r.createOk = envA.createOk ∧
    env9r.msgIdFor = envA.msgIdFor ∧
    env9r.patchStatus = envA.patchStatus ∧
    (∀ l : List String, (env9r.setOrder l).Perm l) ∧
    (checkSessions cfg2 envA stA (some apiJ)).2 ≠
      (checkSessions cfg2 env9r stA (some apiJ)).2 := by
  refine ⟨rfl, rfl, rfl, fun l => List.reverse_perm l, ?_⟩
  rw [run_join_evs, run_join_evs_rev]
  decide

/-- If the player count is unchanged, the count block does nothing. -/
theorem countPhase_skip (cfg : Cfg) (env : Env) (s : Session) (a : Cyc)
    (h : aGet a.st.playerCounts s.id = some s.playerCount) :
    countPhase cfg env s a = a := by
  unfold countPhase
  dsimp only
  rw [h]
  simp

/-- C2 amended: for a tracked session present in the next snapshot
with unchanged content (in particular unchanged player count and
lifecycle state), the cycle emits no Create and no MarkEnded intent,
but does emit one Patch intent per destination holding a live message
identifier — the embed is re-patched on every poll, not only on
content changes. -/
theorem c2_amended_patch_every_poll (cfg : Cfg) (env : Env) (st : St) (s : Session)
    (api : ApiResp)
    (hid : ¬ s.id = "")
    (hrel : hasMonitoredPlayer cfg.monitored s = true)
    (hact : st.active = [(s.id, s)])
    (hcount : aGet st.playerCounts s.id = some s.playerCount)
    (hstate : aGet st.lastKnownStates s.id = some s.state)
    (hex : cfg.webhooks.any (fun w => (aGet (wGetD st w) s.id).isSome) = true)
    (hapi : api.sessions = [s])
    (hok : ∀ w ∈ cfg.webhooks, ∀ mid, entry st w s.id = some mid →
      env.patchStatus w mid = 200 ∨ env.patchStatus w mid = 204) :
    (checkSessions cfg env st (some api)).2 = patchTrace env st s.id cfg.webhooks := by
  have hpair : checkSessions cfg env st (some api) =
      (let st1 : St := { st with lastKnownMods := mergePy st.lastKnownMods api.mods }
       let a2 := runSessions cfg env api api.sessions
         (runEnded cfg env (api.sessions.map Session.id) (st1.active.map Prod.fst)
           ⟨st1, [], 0⟩)
       (a2.st, a2.evs)) := rfl
  rw [hpair]
  dsimp only
  rw [hapi]
  have hkeys : ({ st with lastKnownMods := mergePy st.lastKnownMods api.mods} : St).active
      = [(s.id, s)] := hact
  rw [show ({ st with lastKnownMods := mergePy st.lastKnownMods api.mods} : St).active.map
      Prod.fst = [s.id] from by rw [hkeys]; rfl]
  rw [runEnded_all_present cfg env _ [s.id] _
    (by intro k hk
        rcases List.mem_singleton.1 hk with rfl
        simp [List.contains])]
  rw [runSessions_singleton]
  set st1 : St := { st with lastKnownMods := mergePy st.lastKnownMods api.mods } with hst1
  have hactget : aGet st1.active s.id = some s := by
    rw [show st1.active = [(s.id, s)] from hact]
    simp [aGet]
  rw [handleSession_elif_eq cfg env api ⟨st1, [], 0⟩ s hid hrel
    (by rw [show aGet (⟨st1, [], 0⟩ : Cyc).st.active s.id = aGet st1.active s.id from rfl,
        hactget]; rfl)
    hex]
  dsimp only
  rw [if_neg (by
    rintro ⟨h1, h2⟩
    rw [show aGet (⟨st1, [], 0⟩ : Cyc).st.lastKnownStates s.id =
        aGet st.lastKnownStates s.id from rfl, hstate] at h1
    rw [h2] at h1
    exact (by decide : ¬ (some (some "PreGame") = some (some "InGame"))) h1)]
  rw [countPhase_skip cfg env s _ hcount]
  rw [updateGo_ok cfg env s.id cfg.webhooks _ hok]
  dsimp only
  rw [List.nil_append]
  rfl

/-- Witness for the amended C2 at the concrete two-webhook scenario. -/
theorem c2_amended_patch_every_poll_witness :
    (checkSessions cfg2 envA stA (some apiA)).2 = patchTrace envA stA "A" cfg2.webhooks :=
  c2_amended_patch_every_poll cfg2 envA stA sessA apiA (by decide) rfl rfl rfl rfl rfl rfl
    (fun w _ mid _ => Or.inl rfl)

theorem DirOK_setEntry {st : St} (w sid : String) (mid : Nat) (h : DirOK st) :
    DirOK (setEntry st w sid mid) := by
  intro w2
  by_cases hw : w2 = w
  · subst hw
    rw [wGetD_setEntry_self]
    exact nodup_keys_aSet _ _ _ (h w2)
  · rw [wGetD_setEntry_ne _ _ _ hw]
    exact h w2

theorem DirOK_delEntry {st : St} (w sid : String) (h : DirOK st) :
    DirOK (delEntry st w sid) := by
  intro w2
  by_cases hw : w2 = w
  · subst hw
    rw [wGetD_delEntry_self]
    exact nodup_keys_aDel _ _ (h w2)
  · rw [wGetD_delEntry_ne _ _ hw]
    exact h w2

theorem sendNotifGo_DirOK (env : Env) (isNew : Bool) (sid : String)
    (ws : List String) (a : Cyc) (h : DirOK a.st) :
    DirOK (sendNotifGo env isNew sid ws a).st := by
  induction ws generalizing a with
  | nil => exact h
  | cons w ws ih =>
    unfold sendNotifGo
    by_cases h1 : (isNew || (aGet (wGetD a.st w) sid).isNone) = true
    · rw [if_pos h1]
      by_cases hc : env.createOk w sid a.seq
      · rw [if_pos hc]
        exact ih _ (DirOK_setEntry _ _ _ h)
      · rw [if_neg hc]
        exact ih _ h
    · rw [if_neg h1]
      exact ih _ h

theorem endMessagesGo_DirOK (env : Env) (sid : String) (ws : List String)
    (a : Cyc) (h : DirOK a.st) : DirOK (endMessagesGo env sid ws a).st := by
  induction ws generalizing a with
  | nil => exact h
  | cons w ws ih =>
    unfold endMessagesGo
    cases hg : aGet (wGetD a.st w) sid with
    | none => exact ih _ h
    | some mid => exact ih _ (DirOK_delEntry _ _ h)

theorem updateGo_DirOK (cfg : Cfg) (env : Env) (sid : String) (ws : List String)
    (a : Cyc) (h : DirOK a.st) : DirOK (updateGo cfg env sid ws a).st := by
  induction ws generalizing a with
  | nil => exact h
  | cons w ws ih =>
    unfold updateGo
    cases hg : aGet (wGetD a.st w) sid with
    | none => exact ih _ h
    | some mid =>
      dsimp only
      by_cases h2 : env.patchStatus w mid = 200 ∨ env.patchStatus w mid = 204
      · rw [if_pos h2]
        exact ih _ h
      · rw [if_neg h2]
        by_cases h4 : env.patchStatus w mid = 404
        · rw [if_pos h4]
          unfold sendNotif
          exact ih _ (sendNotifGo_DirOK env true sid cfg.webhooks _ (DirOK_delEntry _ _ h))
        · rw [if_neg h4]
          exact ih _ h

theorem markEndedSession_DirOK (cfg : Cfg) (env : Env) (sid : String) (a : Cyc)
    (h : DirOK a.st) : DirOK (markEndedSession cfg env sid a).st := by
  unfold markEndedSession endMessages
  exact endMessagesGo_DirOK env sid cfg.webhooks a h

theorem handleSession_DirOK (cfg : Cfg) (env : Env) (api : ApiResp) (a : Cyc)
    (s : Session) (h : DirOK a.st) : DirOK (handleSession cfg env api a s).st := by
  unfold handleSession
  by_cases h1 : s.id = ""
  · rw [if_pos h1]
    exact h
  · rw [if_neg h1]
    by_cases h2 : ¬ (hasMonitoredPlayer cfg.monitored s = true)
    · rw [if_pos h2]
      exact h
    · rw [if_neg h2]
      dsimp only
      have hfin : ∀ b : Cyc, DirOK b.st → DirOK
          ({ b with st := { b.st with
            active := aSet b.st.active s.id s,
            playerCounts := aSet b.st.playerCounts s.id s.playerCount,
            lastKnownStates := aSet b.st.lastKnownStates s.id s.state,
            lastApiResponses := aSet b.st.lastApiResponses s.id api } } : Cyc).st :=
        fun b hb => hb
      refine hfin _ ?_
      by_cases hnn : ((aGet a.st.active s.id).isNone ||
          !(cfg.webhooks.any (fun w => (aGet (wGetD a.st w) s.id).isSome))) = true
      · rw [if_pos hnn]
        exact sendNotifGo_DirOK env true s.id cfg.webhooks a h
      · rw [if_neg hnn]
        by_cases h3 : ((aGet a.st.active s.id).isSome) = true
        · rw [if_pos h3]
          refine updateGo_DirOK cfg env s.id cfg.webhooks _ ?_
          have hc : ∀ b : Cyc, DirOK b.st → DirOK (countPhase cfg env s b).st := by
            intro b hb
            rw [countPhase_st]
            exact hb
          refine hc _ ?_
          by_cases h5 : aGet a.st.lastKnownStates s.id = some (some "InGame") ∧
              s.state = some "PreGame"
          · rw [if_pos h5]
            unfold sendNotif endMessages
            exact sendNotifGo_DirOK env true s.id cfg.webhooks _
              (endMessagesGo_DirOK env s.id cfg.webhooks a h)
          · rw [if_neg h5]
            exact h
        · rw [if_neg h3]
          exact h

theorem runEnded_DirOK (cfg : Cfg) (env : Env) (currentIds : List String)
    (sids : List String) (a : Cyc) (h : DirOK a.st) :
    DirOK (runEnded cfg env currentIds sids a).st := by
  induction sids generalizing a with
  | nil => exact h
  | cons k sids ih =>
    unfold runEnded
    by_cases hc : (currentIds.contains k) = true
    · rw [if_pos hc]
      exact ih _ h
    · rw [if_neg hc]
      exact ih _ (markEndedSession_DirOK cfg env k a h)

theorem runSessions_DirOK (cfg : Cfg) (env : Env) (api : ApiResp)
    (ss : List Session) (a : Cyc) (h : DirOK a.st) :
    DirOK (runSessions cfg env api ss a).st := by
  induction ss generalizing a with
  | nil => exact h
  | cons s ss ih =>
    unfold runSessions
    exact ih _ (handleSession_DirOK cfg env api a s h)

/-- C1 amended: the Message Directory always holds at most one
external message identifier per (session, destination) pair, and every
poll cycle preserves this; however (see the counterexample) the
not-found recovery can leave more than one live external message for a
pair, so uniqueness of live external messages is not preserved. -/
theorem c1_amended_directory_unique (cfg : Cfg) (env : Env) (st : St)
    (apiOpt : Option ApiResp) (h : DirOK st) :
    DirOK (checkSessions cfg env st apiOpt).1 := by
  cases apiOpt with
  | none => exact h
  | some api =>
    have hpair : checkSessions cfg env st (some api) =
        (let st1 : St := { st with lastKnownMods := mergePy st.lastKnownMods api.mods }
         let a2 := runSessions cfg env api api.sessions
           (runEnded cfg env (api.sessions.map Session.id) (st1.active.map Prod.fst)
             ⟨st1, [], 0⟩)
         (a2.st, a2.evs)) := rfl
    rw [hpair]
    dsimp only
    refine runSessions_DirOK cfg env api api.sessions _ ?_
    refine runEnded_DirOK cfg env _ _ _ ?_
    exact h

/-- Witness for the amended C1: the concrete two-webhook state
satisfies directory uniqueness and still does after the not-found
recovery cycle. -/
theorem c1_amended_directory_unique_witness :
    DirOK (checkSessions cfg2 env404 stA (some apiA)).1 := by
  refine c1_amended_directory_unique cfg2 env404 stA (some apiA) ?_
  intro w
  unfold SMapOK
  by_cases h1 : w = "D1"
  · subst h1
    decide
  · by_cases h2 : w = "D2"
    · subst h2
      decide
    · rw [show wGetD stA w = [] from by
        simp [wGetD, stA, aGet, Ne.symm h1, Ne.symm h2]]
      decide

/-- The ended-session sweep over an empty key list does nothing. -/
theorem runEnded_nil (cfg : Cfg) (env : Env) (ids : List String) (a : Cyc) :
    runEnded cfg env ids [] a = a := rfl

/-- Status-level destination isolation (used by the amended C8).  For
every environment — that is, whatever statuses (including failure
statuses) the other destinations return — each destination holding a
live identifier for a tracked session still receives its Patch attempt
during the update sweep, and for a new session every destination
receives its Create attempt. -/
theorem c8_destination_isolation (cfg : Cfg) (env : Env) (st : St) (s : Session)
    (api : ApiResp) :
    ((¬ s.id = "") → hasMonitoredPlayer cfg.monitored s = true →
      st.active = [(s.id, s)] →
      aGet st.playerCounts s.id = some s.playerCount →
      aGet st.lastKnownStates s.id = some s.state →
      cfg.webhooks.any (fun w => (aGet (wGetD st w) s.id).isSome) = true →
      api.sessions = [s] →
      ∀ w ∈ cfg.webhooks, (entry st w s.id).isSome = true →
        ∃ mid stt, Ev.patch w s.id mid stt ∈ (checkSessions cfg env st (some api)).2) ∧
    ((¬ s.id = "") → hasMonitoredPlayer cfg.monitored s = true →
      st.active = [] →
      api.sessions = [s] →
      ∀ w ∈ cfg.webhooks, ∃ r, Ev.create w s.id r ∈ (checkSessions cfg env st (some api)).2) := by
  constructor
  · intro hid hrel hact hcount hstate hex hapi w hw hsome
    have hpair : checkSessions cfg env st (some api) =
        (let st1 : St := { st with lastKnownMods := mergePy st.lastKnownMods api.mods }
         let a2 := runSessions cfg env api api.sessions
           (runEnded cfg env (api.sessions.map Session.id) (st1.active.map Prod.fst)
             ⟨st1, [], 0⟩)
         (a2.st, a2.evs)) := rfl
    rw [hpair]
    dsimp only
    rw [hapi]
    have hkeys : ({ st with lastKnownMods := mergePy st.lastKnownMods api.mods} : St).active
        = [(s.id, s)] := hact
    rw [show ({ st with lastKnownMods := mergePy st.lastKnownMods api.mods} : St).active.map
        Prod.fst = [s.id] from by rw [hkeys]; rfl]
    rw [runEnded_all_present cfg env _ [s.id] _
      (by intro k hk
          rcases List.mem_singleton.1 hk with rfl
          simp [List.contains])]
    rw [runSessions_singleton]
    set st1 : St := { st with lastKnownMods := mergePy st.lastKnownMods api.mods } with hst1
    have hactget : aGet st1.active s.id = some s := by
      rw [show st1.active = [(s.id, s)] from hact]
      simp [aGet]
    rw [handleSession_elif_eq cfg env api ⟨st1, [], 0⟩ s hid hrel
      (by rw [show aGet (⟨st1, [], 0⟩ : Cyc).st.active s.id = aGet st1.active s.id from rfl,
          hactget]; rfl) hex]
    dsimp only
    rw [if_neg (by
      rintro ⟨h1, h2⟩
      rw [show aGet (⟨st1, [], 0⟩ : Cyc).st.lastKnownStates s.id =
          aGet st.lastKnownStates s.id from rfl, hstate] at h1
      rw [h2] at h1
      exact (by decide : ¬ (some (some "PreGame") = some (some "InGame"))) h1)]
    rw [countPhase_skip cfg env s _ hcount]
    exact updateGo_patch_attempted cfg env s.id cfg.webhooks _ w hw hsome
  · intro hid hrel hact hapi w hw
    have hpair : checkSessions cfg env st (some api) =
        (let st1 : St := { st with lastKnownMods := mergePy st.lastKnownMods api.mods }
         let a2 := runSessions cfg env api api.sessions
           (runEnded cfg env (api.sessions.map Session.id) (st1.active.map Prod.fst)
             ⟨st1, [], 0⟩)
         (a2.st, a2.evs)) := rfl
    rw [hpair]
    dsimp only
    rw [hapi]
    have hkeys : ({ st with lastKnownMods := mergePy st.lastKnownMods api.mods} : St).active
        = [] := hact
    rw [show ({ st with lastKnownMods := mergePy st.lastKnownMods api.mods} : St).active.map
        Prod.fst = [] from by rw [hkeys]; rfl]
    rw [runEnded_nil]
    rw [runSessions_singleton]
    set st1 : St := { st with lastKnownMods := mergePy st.lastKnownMods api.mods } with hst1
    have hemp : st1.active = [] := hact
    rw [handleSession_new_eq cfg env api ⟨st1, [], 0⟩ s hid hrel
      (by rw [show aGet (⟨st1, [], 0⟩ : Cyc).st.active s.id = aGet st1.active s.id from rfl,
            hemp]
          rfl)]
    dsimp only
    unfold sendNotif
    rw [sendNotifGo_true_evs]
    rcases createTrace_mem env s.id cfg.webhooks 0 w hw with ⟨r, hr⟩
    exact ⟨r, List.mem_append_right _ hr⟩

/-- Instance of status-level isolation: with `D1` failing (404), `D2` still receives its
Patch attempt; from the empty state, both webhooks receive Create
attempts. -/
theorem c8_destination_isolation_witness :
    (∃ mid stt, Ev.patch "D2" "A" mid stt ∈ (checkSessions cfg2 env404 stA (some apiA)).2) ∧
    (∃ r, Ev.create "D1" "A" r ∈ (checkSessions cfg2 envA stEmpty (some apiA)).2) :=
  ⟨(c8_destination_isolation cfg2 env404 stA sessA apiA).1 (by decide) rfl rfl rfl rfl rfl
      rfl "D2" (by decide) rfl,
   (c8_destination_isolation cfg2 envA stEmpty sessA apiA).2 (by decide) rfl rfl rfl
      "D1" (by decide)⟩

/-- C6: for a tracked session whose state was `InGame` on the previous
poll and is `PreGame` on the current poll (game restarted inside the
same session), the cycle first marks every existing message ended, then
creates fresh messages, and never emits a plain Patch of any of the
pre-transition message ids (the hypotheses say all newly issued ids lie
at or above `B` while all old ids lie below `B`). -/
theorem c6_restart_ends_then_creates (cfg : Cfg) (env : Env) (st : St)
    (sOld s : Session) (api : ApiResp) (B : Nat)
    (hid : ¬ s.id = "")
    (hrel : hasMonitoredPlayer cfg.monitored s = true)
    (hact : st.active = [(s.id, sOld)])
    (hstate : aGet st.lastKnownStates s.id = some (some "InGame"))
    (hcur : s.state = some "PreGame")
    (hex : cfg.webhooks.any (fun w => (aGet (wGetD st w) s.id).isSome) = true)
    (hapi : api.sessions = [s])
    (hnd : cfg.webhooks.Nodup)
    (hB : ∀ k, B ≤ env.msgIdFor k)
    (hOld : ∀ w mid, entry st w s.id = some mid → mid < B) :
    (∃ rest, (checkSessions cfg env st (some api)).2 =
        endedTrace env st s.id cfg.webhooks ++ createTrace env s.id cfg.webhooks 0 ++ rest) ∧
    (∀ w mid, entry st w s.id = some mid →
      ∀ stt, Ev.patch w s.id mid stt ∉ (checkSessions cfg env st (some api)).2) := by
  have hpair : checkSessions cfg env st (some api) =
      (let st1 : St := { st with lastKnownMods := mergePy st.lastKnownMods api.mods }
       let a2 := runSessions cfg env api api.sessions
         (runEnded cfg env (api.sessions.map Session.id) (st1.active.map Prod.fst)
           ⟨st1, [], 0⟩)
       (a2.st, a2.evs)) := rfl
  rw [hpair]
  dsimp only
  rw [hapi]
  have hkeys : ({ st with lastKnownMods := mergePy st.lastKnownMods api.mods} : St).active
      = [(s.id, sOld)] := hact
  rw [show ({ st with lastKnownMods := mergePy st.lastKnownMods api.mods} : St).active.map
      Prod.fst = [s.id] from by rw [hkeys]; rfl]
  rw [runEnded_all_present cfg env _ [s.id] _
    (by intro k hk
        rcases List.mem_singleton.1 hk with rfl
        simp [List.contains])]
  rw [runSessions_singleton]
  set st1 : St := { st with lastKnownMods := mergePy st.lastKnownMods api.mods } with hst1
  have hactget : aGet st1.active s.id = some sOld := by
    rw [show st1.active = [(s.id, sOld)] from hact]
    simp [aGet]
  rw [handleSession_elif_eq cfg env api ⟨st1, [], 0⟩ s hid hrel
    (by rw [show aGet (⟨st1, [], 0⟩ : Cyc).st.active s.id = aGet st1.active s.id from rfl,
        hactget]; rfl) hex]
  dsimp only
  rw [if_pos (show aGet (⟨st1, [], 0⟩ : Cyc).st.lastKnownStates s.id =
      some (some "InGame") ∧ s.state = some "PreGame" from ⟨hstate, hcur⟩)]
  have hevE : (endMessages cfg env s.id (⟨st1, [], 0⟩ : Cyc)).evs =
      endedTrace env st s.id cfg.webhooks := by
    show (endMessagesGo env s.id cfg.webhooks (⟨st1, [], 0⟩ : Cyc)).evs = _
    rw [endMessagesGo_evs env s.id cfg.webhooks _ hnd]
    rw [List.nil_append]
    rfl
  have hseqE : (endMessages cfg env s.id (⟨st1, [], 0⟩ : Cyc)).seq = 0 :=
    endMessagesGo_seq env s.id cfg.webhooks _
  have hevC : (sendNotif cfg env true s.id (endMessages cfg env s.id
      (⟨st1, [], 0⟩ : Cyc))).evs =
      endedTrace env st s.id cfg.webhooks ++ createTrace env s.id cfg.webhooks 0 := by
    show (sendNotifGo env true s.id cfg.webhooks _).evs = _
    rw [sendNotifGo_true_evs, hevE, hseqE]
  have hPE : ∀ w ∈ cfg.webhooks, ∀ mid,
      entry (endMessages cfg env s.id (⟨st1, [], 0⟩ : Cyc)).st w s.id = some mid →
      B ≤ mid := by
    intro w hw mid hmid
    rw [show entry (endMessages cfg env s.id (⟨st1, [], 0⟩ : Cyc)).st w s.id =
        entry (endMessagesGo env s.id cfg.webhooks (⟨st1, [], 0⟩ : Cyc)).st w s.id
        from rfl] at hmid
    rw [endMessagesGo_entry_none env s.id cfg.webhooks _ w hw] at hmid
    cases hmid
  have hPC : ∀ w ∈ cfg.webhooks, ∀ mid,
      entry (sendNotif cfg env true s.id (endMessages cfg env s.id
        (⟨st1, [], 0⟩ : Cyc))).st w s.id = some mid → B ≤ mid :=
    sendNotifGo_true_bound env s.id cfg.webhooks _ B cfg.webhooks hB hPE
  have hP3 : ∀ w ∈ cfg.webhooks, ∀ mid,
      entry (countPhase cfg env s (sendNotif cfg env true s.id (endMessages cfg env s.id
        (⟨st1, [], 0⟩ : Cyc)))).st w s.id = some mid → B ≤ mid := by
    rw [countPhase_st]
    exact hPC
  have hbound := updateGo_bound cfg env s.id B cfg.webhooks cfg.webhooks _
    (fun w hw => hw) hB hP3
  rcases countPhase_evs_extend cfg env s (sendNotif cfg env true s.id
    (endMessages cfg env s.id (⟨st1, [], 0⟩ : Cyc))) with ⟨tc, htc, htcShape⟩
  rcases updateGo_evs_extend cfg env s.id cfg.webhooks (countPhase cfg env s
    (sendNotif cfg env true s.id (endMessages cfg env s.id (⟨st1, [], 0⟩ : Cyc))))
    with ⟨t, ht, htShape⟩
  constructor
  · refine ⟨tc ++ t, ?_⟩
    rw [show ({ updateGo cfg env s.id cfg.webhooks (countPhase cfg env s
        (sendNotif cfg env true s.id (endMessages cfg env s.id (⟨st1, [], 0⟩ : Cyc)))) with
        st := _ } : Cyc).evs = (updateGo cfg env s.id cfg.webhooks (countPhase cfg env s
        (sendNotif cfg env true s.id (endMessages cfg env s.id
          (⟨st1, [], 0⟩ : Cyc))))).evs from rfl]
    rw [ht, htc, hevC]
    simp [List.append_assoc]
  · intro w mid hmid stt hmem
    rcases hbound.2 w s.id mid stt hmem with h | h
    · rw [htc] at h
      rcases List.mem_append.1 h with h2 | h2
      · rw [hevC] at h2
        rcases List.mem_append.1 h2 with h3 | h3
        · rcases endedTrace_shape env st s.id cfg.webhooks _ h3 with ⟨w2, mid2, stt2, hEq⟩
          cases hEq
        · exact absurd h3 (createTrace_no_patch env s.id cfg.webhooks _ w s.id mid stt)
      · rcases htcShape _ h2 with ⟨w2, c2, hEq⟩
        cases hEq
    · have := hOld w mid hmid
      omega

/-- Witness for C6 at the concrete restart scenario: previous state
`InGame`, snapshot state `PreGame`. -/
theorem c6_restart_ends_then_creates_witness :
    (∃ rest, (checkSessions cfg2 envA st6 (some apiA)).2 =
        endedTrace envA st6 "A" cfg2.webhooks ++
          createTrace envA "A" cfg2.webhooks 0 ++ rest) ∧
    (∀ w mid, entry st6 w "A" = some mid →
      ∀ stt, Ev.patch w "A" mid stt ∉ (checkSessions cfg2 envA st6 (some apiA)).2) :=
  c6_restart_ends_then_creates cfg2 envA st6 sessA sessA apiA 1000
    (by decide) rfl rfl rfl rfl rfl rfl (by decide)
    (fun k => Nat.le_add_right 1000 k)
    (by intro w mid h
        by_cases h1 : w = "D1"
        · subst h1
          rw [show entry st6 "D1" sessA.id = some 100 from rfl] at h
          cases h
          decide
        · by_cases h2 : w = "D2"
          · subst h2
            rw [show entry st6 "D2" sessA.id = some 200 from rfl] at h
            cases h
            decide
          · simp [entry, wGetD, st6, stA, aGet, Ne.symm h1, Ne.symm h2] at h)

theorem aGet_mem_keys {α : Type} (m : List (String × α)) (k : String) (v : α)
    (h : aGet m k = some v) : k ∈ m.map Prod.fst := by
  induction m with
  | nil => cases h
  | cons p m ih =>
    unfold aGet at h
    by_cases hp : p.1 = k
    · subst hp
      simp
    · rw [if_neg hp] at h
      simp [ih h]

theorem contains_of_mem (l : List String) (x : String) (h : x ∈ l) :
    l.contains x = true :=
  List.elem_eq_true_of_mem h

theorem contains_eq_false_of_not_mem (l : List String) (x : String) (h : x ∉ l) :
    l.contains x = false := by
  rw [Bool.eq_false_iff]
  intro hc
  exact h (List.mem_of_elem_eq_true hc)

theorem runEnded_append (cfg : Cfg) (env : Env) (ids : List String)
    (l1 l2 : List String) (a : Cyc) :
    runEnded cfg env ids (l1 ++ l2) a = runEnded cfg env ids l2 (runEnded cfg env ids l1 a) := by
  induction l1 generalizing a with
  | nil => rfl
  | cons k l1 ih =>
    simp only [List.cons_append]
    rw [show runEnded cfg env ids (k :: (l1 ++ l2)) a =
        (if ids.contains k = true then runEnded cfg env ids (l1 ++ l2) a
         else runEnded cfg env ids (l1 ++ l2) (markEndedSession cfg env k a)) from rfl]
    rw [show runEnded cfg env ids (k :: l1) a =
        (if ids.contains k = true then runEnded cfg env ids l1 a
         else runEnded cfg env ids l1 (markEndedSession cfg env k a)) from rfl]
    by_cases hc : (ids.contains k) = true
    · rw [if_pos hc, if_pos hc]
      exact ih _
    · rw [if_neg hc, if_neg hc]
      exact ih _

theorem runEnded_untouched_of_present (cfg : Cfg) (env : Env)
    (currentIds : List String) (sids : List String) (a : Cyc) (sid : String)
    (hpres : currentIds.contains sid = true) :
    untouched sid a (runEnded cfg env currentIds sids a) := by
  induction sids generalizing a with
  | nil => exact untouched_refl _ _
  | cons k sids ih =>
    unfold runEnded
    by_cases hc : (currentIds.contains k) = true
    · rw [if_pos hc]
      exact ih _
    · rw [if_neg hc]
      have hk : k ≠ sid := fun hh => hc (hh ▸ hpres)
      exact untouched_trans
        (markEndedSession_untouched cfg env sid k a (fun hh => hk hh.symm)) (ih _)

theorem runSessions_untouched_of_irrelevant (cfg : Cfg) (env : Env) (api : ApiResp)
    (ss : List Session) (a : Cyc) (sid : String)
    (h : ∀ s2 ∈ ss, s2.id = sid →
      s2.id = "" ∨ hasMonitoredPlayer cfg.monitored s2 = false) :
    untouched sid a (runSessions cfg env api ss a) := by
  induction ss generalizing a with
  | nil => exact untouched_refl _ _
  | cons s ss ih =>
    unfold runSessions
    have htl : ∀ s2 ∈ ss, s2.id = sid →
        s2.id = "" ∨ hasMonitoredPlayer cfg.monitored s2 = false :=
      fun s2 hs2 => h s2 (List.mem_cons_of_mem s hs2)
    refine untouched_trans ?_ (ih _ htl)
    by_cases hsid : s.id = sid
    · rcases h s (List.mem_cons_self s ss) hsid with h1 | h1
      · rw [handleSession_skip_noid cfg env api a s h1]
        exact untouched_refl _ _
      · by_cases h2 : s.id = ""
        · rw [handleSession_skip_noid cfg env api a s h2]
          exact untouched_refl _ _
        · rw [handleSession_skip_irrelevant cfg env api a s h2 h1]
          exact untouched_refl _ _
    · exact handleSession_untouched cfg env api a s sid (fun hh => hsid hh.symm)

theorem isEndedFor_true (w sid : String) (e : Ev) (h : isEndedFor w sid e = true) :
    ∃ mid stt, e = Ev.markEnded w sid mid stt ∧ evSid e = sid := by
  cases e with
  | markEnded w2 sid2 mid stt =>
    simp only [isEndedFor, Bool.and_eq_true, decide_eq_true_eq] at h
    obtain ⟨hw, hs⟩ := h
    subst hw
    subst hs
    exact ⟨mid, stt, rfl, rfl⟩
  | create w2 sid2 r => cases h
  | patch w2 sid2 mid stt => cases h
  | countNotify w2 sid2 c => cases h

theorem filter_isEndedFor_nil (w sid : String) (t : List Ev)
    (h : ∀ e ∈ t, evSid e ≠ sid) : t.filter (isEndedFor w sid) = [] := by
  rw [List.filter_eq_nil]
  intro e he hf
  rcases isEndedFor_true w sid e hf with ⟨mid, stt, rfl, hs⟩
  exact h _ he hs

theorem endedTrace_count_zero (env : Env) (st : St) (sid : String)
    (ws : List String) (w : String) (hw : w ∉ ws) :
    ((endedTrace env st sid ws).filter (isEndedFor w sid)).length = 0 := by
  rw [show (endedTrace env st sid ws).filter (isEndedFor w sid) = [] from ?_]
  · rfl
  · rw [List.filter_eq_nil]
    intro e he hf
    rcases isEndedFor_true w sid e hf with ⟨mid, stt, rfl, _⟩
    unfold endedTrace at he
    rcases List.mem_filterMap.1 he with ⟨w2, hw2, hmap⟩
    rcases Option.map_eq_some'.1 hmap with ⟨mid2, _, hEq⟩
    cases hEq
    exact hw hw2

theorem endedTrace_count (env : Env) (st : St) (sid : String) (ws : List String)
    (w : String) (hnd : ws.Nodup) (hw : w ∈ ws) :
    ((endedTrace env st sid ws).filter (isEndedFor w sid)).length =
      if (entry st w sid).isSome then 1 else 0 := by
  induction ws with
  | nil => cases hw
  | cons w0 ws ih =>
    rw [List.nodup_cons] at hnd
    unfold endedTrace
    rw [List.filterMap_cons]
    by_cases hww : w = w0
    · subst hww
      cases hE : entry st w sid with
      | none =>
        simp only [hE, Option.map_none', Option.isSome_none]
        have := endedTrace_count_zero env st sid ws w hnd.1
        unfold endedTrace at this
        simpa using this
      | some mid =>
        simp only [hE, Option.map_some', Option.isSome_some]
        rw [List.filter_cons]
        rw [if_pos (by unfold isEndedFor; simp)]
        have := endedTrace_count_zero env st sid ws w hnd.1
        unfold endedTrace at this
        simp only [List.length_cons, this]
        simp
    · have hwtl : w ∈ ws := by
        rcases List.mem_cons.1 hw with h | h
        · exact absurd h hww
        · exact h
      cases hE : entry st w0 sid with
      | none =>
        simp only [hE, Option.map_none']
        have := ih hnd.2 hwtl
        unfold endedTrace at this
        exact this
      | some mid =>
        simp only [hE, Option.map_some']
        rw [List.filter_cons]
        rw [if_neg (by
          unfold isEndedFor
          simp [Ne.symm hww])]
        have := ih hnd.2 hwtl
        unfold endedTrace at this
        exact this

/-- Status-level ended sweep (used by the amended C5): for a tracked
session absent from the current snapshot, on a run where every ended
PATCH returns a status, exactly one MarkEnded delivery is attempted
per destination holding a live message identifier — whatever status
each delivery returns — no other intent is emitted for that session,
and the Tracked Session Record (active snapshot, player count, last
known state) and all directory entries are removed afterward. -/
theorem c5_vanished_marked_once_and_removed (cfg : Cfg) (env : Env) (st : St)
    (api : ApiResp) (sid : String) (sOld : Session)
    (hnd : cfg.webhooks.Nodup)
    (hA : aGet st.active sid = some sOld)
    (hkeys : (st.active.map Prod.fst).Nodup)
    (hAbs : sid ∉ api.sessions.map Session.id) :
    (∀ w ∈ cfg.webhooks,
      (((checkSessions cfg env st (some api)).2).filter (isEndedFor w sid)).length =
        if (entry st w sid).isSome then 1 else 0) ∧
    (∀ e ∈ (checkSessions cfg env st (some api)).2, evSid e = sid →
      ∃ w mid stt, w ∈ cfg.webhooks ∧ e = Ev.markEnded w sid mid stt) ∧
    aGet (checkSessions cfg env st (some api)).1.active sid = none ∧
    aGet (checkSessions cfg env st (some api)).1.playerCounts sid = none ∧
    aGet (checkSessions cfg env st (some api)).1.lastKnownStates sid = none ∧
    (∀ w ∈ cfg.webhooks, entry (checkSessions cfg env st (some api)).1 w sid = none) := by
  have hpair : checkSessions cfg env st (some api) =
      (let st1 : St := { st with lastKnownMods := mergePy st.lastKnownMods api.mods }
       let a2 := runSessions cfg env api api.sessions
         (runEnded cfg env (api.sessions.map Session.id) (st1.active.map Prod.fst)
           ⟨st1, [], 0⟩)
       (a2.st, a2.evs)) := rfl
  rw [hpair]
  dsimp only
  set st1 : St := { st with lastKnownMods := mergePy st.lastKnownMods api.mods } with hst1
  have hmemkeys : sid ∈ st.active.map Prod.fst := aGet_mem_keys st.active sid sOld hA
  obtain ⟨pre, post, hsplit⟩ := List.append_of_mem hmemkeys
  have hkeys2 := hkeys
  rw [hsplit] at hkeys2
  have hsidpre : sid ∉ pre := by
    intro hmem
    exact (List.nodup_append.1 hkeys2).2.2 hmem (List.mem_cons_self _ _)
  have hsidpost : sid ∉ post := by
    have h2 : (sid :: post).Nodup := (List.nodup_append.1 hkeys2).2.1
    exact (List.nodup_cons.1 h2).1
  rw [show st1.active.map Prod.fst = st.active.map Prod.fst from rfl, hsplit]
  rw [runEnded_append]
  have hcont : (api.sessions.map Session.id).contains sid = false :=
    contains_eq_false_of_not_mem _ _ hAbs
  rw [show runEnded cfg env (api.sessions.map Session.id) (sid :: post)
      (runEnded cfg env (api.sessions.map Session.id) pre (⟨st1, [], 0⟩ : Cyc)) =
      (if (api.sessions.map Session.id).contains sid = true then
        runEnded cfg env (api.sessions.map Session.id) post
          (runEnded cfg env (api.sessions.map Session.id) pre (⟨st1, [], 0⟩ : Cyc))
       else
        runEnded cfg env (api.sessions.map Session.id) post
          (markEndedSession cfg env sid
            (runEnded cfg env (api.sessions.map Session.id) pre (⟨st1, [], 0⟩ : Cyc))))
      from rfl]
  rw [if_neg (show ¬ ((api.sessions.map Session.id).contains sid = true) from by
    intro hh
    rw [hcont] at hh
    cases hh)]
  set aPre : Cyc := runEnded cfg env (api.sessions.map Session.id) pre
    (⟨st1, [], 0⟩ : Cyc) with haPre
  have hUpre : untouched sid (⟨st1, [], 0⟩ : Cyc) aPre :=
    runEnded_untouched cfg env _ pre _ sid
      (fun k hk hh => hsidpre (hh ▸ hk))
  set aM : Cyc := markEndedSession cfg env sid aPre with haM
  have hMevs : aM.evs = aPre.evs ++ endedTrace env aPre.st sid cfg.webhooks :=
    markEndedSession_evs cfg env sid aPre hnd
  have hTrace : endedTrace env aPre.st sid cfg.webhooks =
      endedTrace env st sid cfg.webhooks :=
    endedTrace_congr env sid (fun w _ => (hUpre.2.2.2.2.1 w).trans rfl)
  have hUrest : untouched sid aM
      (runSessions cfg env api api.sessions
        (runEnded cfg env (api.sessions.map Session.id) post aM)) := by
    refine untouched_trans
      (runEnded_untouched cfg env (api.sessions.map Session.id) post aM sid
        (fun k hk hh => hsidpost (hh ▸ hk))) ?_
    exact runSessions_untouched cfg env api api.sessions _ sid
      (fun s2 hs2 hh => hAbs (hh ▸ List.mem_map_of_mem Session.id hs2))
  obtain ⟨u1, u2, u3, u4, u5, t, hte, hts⟩ := hUrest
  obtain ⟨_, _, _, _, _, tpre, htpre, htpres⟩ := hUpre
  have hevs : (runSessions cfg env api api.sessions
      (runEnded cfg env (api.sessions.map Session.id) post aM)).evs =
      tpre ++ endedTrace env st sid cfg.webhooks ++ t := by
    rw [hte, hMevs, hTrace, htpre]
    simp
  refine ⟨?_, ?_, ?_, ?_, ?_, ?_⟩
  · intro w hw
    rw [hevs]
    rw [List.filter_append, List.filter_append]
    rw [filter_isEndedFor_nil w sid tpre htpres, filter_isEndedFor_nil w sid t hts]
    simp only [List.append_nil, List.nil_append]
    exact endedTrace_count env st sid cfg.webhooks w hnd hw
  · intro e he hsid
    rw [hevs] at he
    rcases List.mem_append.1 he with he2 | he2
    · rcases List.mem_append.1 he2 with he3 | he3
      · exact absurd hsid (htpres e he3)
      · unfold endedTrace at he3
        rcases List.mem_filterMap.1 he3 with ⟨w, hwmem, hmap⟩
        rcases Option.map_eq_some'.1 hmap with ⟨mid, _, hEq⟩
        exact ⟨w, mid, env.patchStatus w mid, hwmem, hEq.symm⟩
    · exact absurd hsid (hts e he2)
  · rw [u1]
    exact markEndedSession_active_self cfg env sid aPre
  · rw [u2]
    exact markEndedSession_playerCounts_self cfg env sid aPre
  · rw [u3]
    exact markEndedSession_lastKnownStates_self cfg env sid aPre
  · intro w hw
    rw [u5 w]
    exact markEndedSession_entry_none cfg env sid aPre w hw

/-- Instance of the status-level ended sweep: session `A` tracked with
messages at both webhooks, and a snapshot from which it has vanished
(while an unrelated relevant session `B` is present), under an
environment whose PATCHes all fail with 500. -/
theorem c5_vanished_marked_once_and_removed_witness :
    (∀ w ∈ cfg2.webhooks,
      (((checkSessions cfg2 env500 stA (some apiB)).2).filter (isEndedFor w "A")).length =
        if (entry stA w "A").isSome then 1 else 0) ∧
    (∀ e ∈ (checkSessions cfg2 env500 stA (some apiB)).2, evSid e = "A" →
      ∃ w mid stt, w ∈ cfg2.webhooks ∧ e = Ev.markEnded w "A" mid stt) ∧
    aGet (checkSessions cfg2 env500 stA (some apiB)).1.active "A" = none ∧
    aGet (checkSessions cfg2 env500 stA (some apiB)).1.playerCounts "A" = none ∧
    aGet (checkSessions cfg2 env500 stA (some apiB)).1.lastKnownStates "A" = none ∧
    (∀ w ∈ cfg2.webhooks, entry (checkSessions cfg2 env500 stA (some apiB)).1 w "A" = none) :=
  c5_vanished_marked_once_and_removed cfg2 env500 stA apiB "A" sessA
    (by decide) rfl (by decide) (by decide)

/-- C4 amended: only ids absent from the snapshot entirely are marked
ended and removed (that case is C5's theorem); a session that is still
present in the snapshot but no longer satisfies the relevance
predicate is left completely alone — no intent of any kind is emitted
for it, and its Tracked Session Record and directory entries are all
retained unchanged. -/
theorem c4_amended_irrelevant_present_kept (cfg : Cfg) (env : Env) (st : St)
    (api : ApiResp) (sid : String) (sOld : Session) (s : Session)
    (hA : aGet st.active sid = some sOld)
    (hs : s ∈ api.sessions) (hsid : s.id = sid)
    (hirr : ∀ s2 ∈ api.sessions, s2.id = sid →
      hasMonitoredPlayer cfg.monitored s2 = false) :
    aGet (checkSessions cfg env st (some api)).1.active sid = some sOld ∧
    aGet (checkSessions cfg env st (some api)).1.playerCounts sid =
      aGet st.playerCounts sid ∧
    aGet (checkSessions cfg env st (some api)).1.lastKnownStates sid =
      aGet st.lastKnownStates sid ∧
    (∀ w, entry (checkSessions cfg env st (some api)).1 w sid = entry st w sid) ∧
    (∀ e ∈ (checkSessions cfg env st (some api)).2, evSid e ≠ sid) := by
  have hpair : checkSessions cfg env st (some api) =
      (let st1 : St := { st with lastKnownMods := mergePy st.lastKnownMods api.mods }
       let a2 := runSessions cfg env api api.sessions
         (runEnded cfg env (api.sessions.map Session.id) (st1.active.map Prod.fst)
           ⟨st1, [], 0⟩)
       (a2.st, a2.evs)) := rfl
  rw [hpair]
  dsimp only
  set st1 : St := { st with lastKnownMods := mergePy st.lastKnownMods api.mods } with hst1
  have hpres : (api.sessions.map Session.id).contains sid = true :=
    contains_of_mem _ _ (hsid ▸ List.mem_map_of_mem Session.id hs)
  have hU1 := runEnded_untouched_of_present cfg env (api.sessions.map Session.id)
    (st1.active.map Prod.fst) ⟨st1, [], 0⟩ sid hpres
  have hU2 := runSessions_untouched_of_irrelevant cfg env api api.sessions
    (runEnded cfg env (api.sessions.map Session.id) (st1.active.map Prod.fst)
      ⟨st1, [], 0⟩) sid (fun s2 hs2 hh => Or.inr (hirr s2 hs2 hh))
  have hU : untouched sid (⟨st1, [], 0⟩ : Cyc)
      (runSessions cfg env api api.sessions
        (runEnded cfg env (api.sessions.map Session.id) (st1.active.map Prod.fst)
          ⟨st1, [], 0⟩)) := untouched_trans hU1 hU2
  obtain ⟨u1, u2, u3, u4, u5, t, hte, hts⟩ := hU
  refine ⟨u1.trans hA, u2.trans rfl, u3.trans rfl, fun w => (u5 w).trans rfl, ?_⟩
  intro e he
  rw [hte] at he
  rcases List.mem_append.1 he with h | h
  · cases h
  · exact hts e h

/-- Witness for the amended C4: session `A` tracked, snapshot contains
`A` renamed "Test" (irrelevant); everything about `A` is retained. -/
theorem c4_amended_irrelevant_present_kept_witness :
    aGet (checkSessions cfg2 envA stA (some apiTest)).1.active "A" = some sessA ∧
    aGet (checkSessions cfg2 envA stA (some apiTest)).1.playerCounts "A" =
      aGet stA.playerCounts "A" ∧
    aGet (checkSessions cfg2 envA stA (some apiTest)).1.lastKnownStates "A" =
      aGet stA.lastKnownStates "A" ∧
    (∀ w, entry (checkSessions cfg2 envA stA (some apiTest)).1 w "A" = entry stA w "A") ∧
    (∀ e ∈ (checkSessions cfg2 envA stA (some apiTest)).2, evSid e ≠ "A") :=
  c4_amended_irrelevant_present_kept cfg2 envA stA apiTest "A" sessA sessTest
    rfl (by decide) rfl (by decide)

theorem updateGo_cons (cfg : Cfg) (env : Env) (sid w : String)
    (ws : List String) (a : Cyc) :
    updateGo cfg env sid (w :: ws) a =
      (match aGet (wGetD a.st w) sid with
      | none => updateGo cfg env sid ws a
      | some mid =>
        if env.patchStatus w mid = 200 ∨ env.patchStatus w mid = 204 then
          updateGo cfg env sid ws
            ⟨a.st, a.evs ++ [Ev.patch w sid mid (env.patchStatus w mid)], a.seq⟩
        else if env.patchStatus w mid = 404 then
          updateGo cfg env sid ws (sendNotif cfg env true sid
            ⟨delEntry a.st w sid,
             a.evs ++ [Ev.patch w sid mid (env.patchStatus w mid)], a.seq⟩)
        else
          updateGo cfg env sid ws
            ⟨a.st, a.evs ++ [Ev.patch w sid mid (env.patchStatus w mid)], a.seq⟩) := rfl

theorem updateGo_append (cfg : Cfg) (env : Env) (sid : String)
    (l1 l2 : List String) (a : Cyc) :
    updateGo cfg env sid (l1 ++ l2) a = updateGo cfg env sid l2 (updateGo cfg env sid l1 a) := by
  induction l1 generalizing a with
  | nil => rfl
  | cons w l1 ih =>
    simp only [List.cons_append]
    rw [updateGo_cons cfg env sid w (l1 ++ l2) a, updateGo_cons cfg env sid w l1 a]
    cases hg : aGet (wGetD a.st w) sid with
    | none =>
      dsimp only
      exact ih _
    | some mid =>
      dsimp only
      by_cases h2 : env.patchStatus w mid = 200 ∨ env.patchStatus w mid = 204
      · simp only [if_pos h2]
        exact ih _
      · simp only [if_neg h2]
        by_cases h4 : env.patchStatus w mid = 404
        · simp only [if_pos h4]
          exact ih _
        · simp only [if_neg h4]
          exact ih _

theorem updateGo_cons_404 (cfg : Cfg) (env : Env) (sid w : String)
    (ws : List String) (a : Cyc) (mid : Nat)
    (hg : aGet (wGetD a.st w) sid = some mid)
    (h404 : env.patchStatus w mid = 404) :
    updateGo cfg env sid (w :: ws) a =
      updateGo cfg env sid ws (sendNotif cfg env true sid
        (⟨delEntry a.st w sid, a.evs ++ [Ev.patch w sid mid 404], a.seq⟩ : Cyc)) := by
  rw [updateGo_cons, hg]
  dsimp only
  rw [h404]
  rw [if_neg (by decide), if_pos rfl]

theorem sendNotifGo_fresh_preserved (env : Env) (sid : String) (ws : List String)
    (a : Cyc) (w : String) (k : Nat)
    (h : entry a.st w sid = some (env.msgIdFor k)) :
    ∃ k2, entry (sendNotifGo env true sid ws a).st w sid = some (env.msgIdFor k2) := by
  induction ws generalizing a k with
  | nil => exact ⟨k, h⟩
  | cons w0 ws ih =>
    unfold sendNotifGo
    simp only [Bool.true_or, if_pos]
    by_cases hc : env.createOk w0 sid a.seq
    · rw [if_pos hc]
      by_cases hw : w = w0
      · subst hw
        exact ih _ a.seq (entry_setEntry_self _ _ _ _)
      · refine ih _ k ?_
        rw [entry_setEntry_ne_w _ _ _ _ hw]
        exact h
    · rw [if_neg hc]
      exact ih _ k h

theorem sendNotifGo_true_fresh (env : Env) (sid : String) (ws : List String)
    (a : Cyc) (hCO : ∀ w k, env.createOk w sid k = true) :
    ∀ w ∈ ws, ∃ k, entry (sendNotifGo env true sid ws a).st w sid =
      some (env.msgIdFor k) := by
  induction ws generalizing a with
  | nil => intro w hw
           cases hw
  | cons w0 ws ih =>
    intro w hw
    unfold sendNotifGo
    simp only [Bool.true_or, if_pos]
    rw [if_pos (hCO w0 a.seq)]
    by_cases hww : w = w0
    · subst hww
      exact sendNotifGo_fresh_preserved env sid ws _ w a.seq (entry_setEntry_self _ _ _ _)
    · have hwtl : w ∈ ws := by
        rcases List.mem_cons.1 hw with h | h
        · exact absurd h hww
        · exact h
      exact ih _ w hwtl

/-- C3 amended: when a PATCH for a tracked, otherwise-unchanged
session answers 404 at one destination, the entry is dropped and
`send_discord_notification(is_new=True)` runs in the SAME cycle (not
the next one), re-creating the announcement at EVERY configured
destination; the 404 destination ends the cycle holding the freshly
created message id. -/
theorem c3_amended_404_recreates_same_cycle (cfg : Cfg) (env : Env) (st : St)
    (s : Session) (api : ApiResp) (pre post : List String) (D : String) (midD : Nat)
    (hid : ¬ s.id = "")
    (hrel : hasMonitoredPlayer cfg.monitored s = true)
    (hact : st.active = [(s.id, s)])
    (hcount : aGet st.playerCounts s.id = some s.playerCount)
    (hstate : aGet st.lastKnownStates s.id = some s.state)
    (hex : cfg.webhooks.any (fun w => (aGet (wGetD st w) s.id).isSome) = true)
    (hapi : api.sessions = [s])
    (hws : cfg.webhooks = pre ++ D :: post)
    (hnd : cfg.webhooks.Nodup)
    (hED : entry st D s.id = some midD)
    (h404 : env.patchStatus D midD = 404)
    (hpre : ∀ w ∈ pre, ∀ mid, entry st w s.id = some mid →
      env.patchStatus w mid = 200 ∨ env.patchStatus w mid = 204)
    (hCO : ∀ w k, env.createOk w s.id k = true)
    (hfresh : ∀ w ∈ cfg.webhooks, ∀ k, env.patchStatus w (env.msgIdFor k) = 200) :
    Ev.patch D s.id midD 404 ∈ (checkSessions cfg env st (some api)).2 ∧
    (∀ w ∈ cfg.webhooks, ∃ r, Ev.create w s.id r ∈ (checkSessions cfg env st (some api)).2) ∧
    entry (checkSessions cfg env st (some api)).1 D s.id =
      some (env.msgIdFor pre.length) := by
  have hpair : checkSessions cfg env st (some api) =
      (let st1 : St := { st with lastKnownMods := mergePy st.lastKnownMods api.mods }
       let a2 := runSessions cfg env api api.sessions
         (runEnded cfg env (api.sessions.map Session.id) (st1.active.map Prod.fst)
           ⟨st1, [], 0⟩)
       (a2.st, a2.evs)) := rfl
  rw [hpair]
  dsimp only
  rw [hapi]
  have hkeys : ({ st with lastKnownMods := mergePy st.lastKnownMods api.mods} : St).active
      = [(s.id, s)] := hact
  rw [show ({ st with lastKnownMods := mergePy st.lastKnownMods api.mods} : St).active.map
      Prod.fst = [s.id] from by rw [hkeys]; rfl]
  rw [runEnded_all_present cfg env _ [s.id] _
    (by intro k hk
        rcases List.mem_singleton.1 hk with rfl
        simp [List.contains])]
  rw [runSessions_singleton]
  set st1 : St := { st with lastKnownMods := mergePy st.lastKnownMods api.mods } with hst1
  have hactget : aGet st1.active s.id = some s := by
    rw [show st1.active = [(s.id, s)] from hact]
    simp [aGet]
  rw [handleSession_elif_eq cfg env api ⟨st1, [], 0⟩ s hid hrel
    (by rw [show aGet (⟨st1, [], 0⟩ : Cyc).st.active s.id = aGet st1.active s.id from rfl,
        hactget]; rfl)
    hex]
  dsimp only
  rw [if_neg (by
    rintro ⟨h1, h2⟩
    rw [show aGet (⟨st1, [], 0⟩ : Cyc).st.lastKnownStates s.id =
        aGet st.lastKnownStates s.id from rfl, hstate] at h1
    rw [h2] at h1
    exact (by decide : ¬ (some (some "PreGame") = some (some "InGame"))) h1)]
  rw [countPhase_skip cfg env s _ hcount]
  rw [hws, updateGo_append cfg env s.id pre (D :: post) ⟨st1, [], 0⟩]
  rw [updateGo_ok cfg env s.id pre ⟨st1, [], 0⟩ (fun w hw mid hm => hpre w hw mid hm)]
  dsimp only
  rw [List.nil_append]
  rw [updateGo_cons_404 cfg env s.id D post ⟨st1, patchTrace env st1 s.id pre, 0⟩ midD hED h404]
  have hDpost : D ∉ post := by
    rw [hws] at hnd
    exact (List.nodup_cons.1 (List.Nodup.of_append_right hnd)).1
  dsimp only
  have hsend : sendNotif cfg env true s.id
      (⟨delEntry st1 D s.id,
        patchTrace env st1 s.id pre ++ [Ev.patch D s.id midD 404], 0⟩ : Cyc) =
      sendNotifGo env true s.id (pre ++ D :: post)
        (⟨delEntry st1 D s.id,
          patchTrace env st1 s.id pre ++ [Ev.patch D s.id midD 404], 0⟩ : Cyc) := by
    unfold sendNotif
    rw [hws]
  rw [hsend]
  have hfreshAll : ∀ w ∈ pre ++ D :: post, ∃ k,
      entry (sendNotifGo env true s.id (pre ++ D :: post)
        (⟨delEntry st1 D s.id,
          patchTrace env st1 s.id pre ++ [Ev.patch D s.id midD 404], 0⟩ : Cyc)).st w s.id =
      some (env.msgIdFor k) :=
    sendNotifGo_true_fresh env s.id (pre ++ D :: post) _ (fun w k => hCO w k)
  have hwsfresh : ∀ w ∈ pre ++ D :: post, ∀ k,
      env.patchStatus w (env.msgIdFor k) = 200 := by
    rw [← hws]
    exact hfresh
  have hok2 : ∀ w ∈ post, ∀ mid,
      entry (sendNotifGo env true s.id (pre ++ D :: post)
        (⟨delEntry st1 D s.id,
          patchTrace env st1 s.id pre ++ [Ev.patch D s.id midD 404], 0⟩ : Cyc)).st w s.id =
        some mid →
      env.patchStatus w mid = 200 ∨ env.patchStatus w mid = 204 := by
    intro w hw mid hm
    have hwW : w ∈ pre ++ D :: post :=
      List.mem_append_right _ (List.mem_cons_of_mem _ hw)
    obtain ⟨k, hk⟩ := hfreshAll w hwW
    rw [hm] at hk
    rw [Option.some.inj hk]
    exact Or.inl (hwsfresh w hwW k)
  rw [updateGo_ok cfg env s.id post _ hok2]
  dsimp only
  refine ⟨?_, ?_, ?_⟩
  · rw [sendNotifGo_true_evs]
    dsimp only
    exact List.mem_append_left _ (List.mem_append_left _
      (List.mem_append_right _ (List.mem_singleton.2 rfl)))
  · intro w hw
    obtain ⟨r, hr⟩ := createTrace_mem env s.id (pre ++ D :: post) 0 w hw
    refine ⟨r, ?_⟩
    rw [sendNotifGo_true_evs]
    dsimp only
    exact List.mem_append_left _ (List.mem_append_right _ hr)
  · exact (sendNotifGo_true_entry_pos env s.id pre post D _ hDpost
      (fun k => hCO D k)).trans (by rw [Nat.zero_add])

/-- Witness for the amended C3: the `D1` PATCH of message 100 answers
404; the same cycle re-creates the announcement at both `D1` and `D2`
and `D1` ends up holding the fresh id 1000. -/
theorem c3_amended_404_recreates_same_cycle_witness :
    Ev.patch "D1" "A" 100 404 ∈ (checkSessions cfg2 env404 stA (some apiA)).2 ∧
    (∀ w ∈ cfg2.webhooks, ∃ r,
      Ev.create w "A" r ∈ (checkSessions cfg2 env404 stA (some apiA)).2) ∧
    entry (checkSessions cfg2 env404 stA (some apiA)).1 "D1" "A" =
      some (env404.msgIdFor 0) :=
  c3_amended_404_recreates_same_cycle cfg2 env404 stA sessA apiA [] ["D2"] "D1" 100
    (by decide) rfl rfl rfl rfl rfl rfl rfl (by decide) rfl (by decide)
    (fun w hw => absurd hw (List.not_mem_nil w))
    (fun _ _ => rfl)
    (by
      intro w hw k
      show (if w = "D1" ∧ 1000 + k = 100 then 404 else 200) = 200
      rw [if_neg]
      rintro ⟨-, h2⟩
      omega)

/-- C9 amended: the joined/left classification itself is a set
difference and thus order-independent, but when SEVERAL players change
at once the single name shown is whichever the Python set happens to
enumerate first — not a deterministic canonical choice (see the
counterexample).  Determinism does hold in the single-change case:
when exactly one player joined, every set-iteration order yields the
same block result, and the summary names that player. -/
theorem c9_amended_singleton_diff_deterministic (cfg : Cfg) (env env2 : Env)
    (s : Session) (a : Cyc) (n0 : String)
    (hp1 : ∀ l : List String, (env.setOrder l).Perm l)
    (hp2 : ∀ l : List String, (env2.setOrder l).Perm l)
    (hprev : (aGet a.st.playerCounts s.id).getD 0 < s.playerCount)
    (hdiff : (rosterNames s.players).filter
      (fun n => !((rosterNames (((aGet a.st.active s.id).map
        Session.players).getD [])).contains n)) = [n0]) :
    countPhase cfg env s a = countPhase cfg env2 s a ∧
    countPhase cfg env s a = { a with evs := a.evs ++ cfg.webhooks.map (fun w =>
      Ev.countNotify w s.id (toString s.playerCount ++ "/" ++ toString s.maxPlayers ++
        " (" ++ (n0 ++ " joined") ++ ")")) } := by
  have hne : ¬ s.playerCount = (aGet a.st.playerCounts s.id).getD 0 :=
    fun h => absurd hprev (by omega)
  have h1 : (env.setOrder ((rosterNames s.players).filter
      (fun n => !((rosterNames (((aGet a.st.active s.id).map
        Session.players).getD [])).contains n)))) = [n0] := by
    rw [hdiff]
    exact List.perm_singleton.1 (hp1 [n0])
  have h2 : (env2.setOrder ((rosterNames s.players).filter
      (fun n => !((rosterNames (((aGet a.st.active s.id).map
        Session.players).getD [])).contains n)))) = [n0] := by
    rw [hdiff]
    exact List.perm_singleton.1 (hp2 [n0])
  constructor
  · unfold countPhase
    dsimp only
    rw [if_neg hne, if_neg hne, if_pos hprev, if_pos hprev, h1, h2]
  · unfold countPhase
    dsimp only
    rw [if_neg hne, if_pos hprev, h1]
    rfl

/-- Witness for the amended C9: one join, straight and reversed set
orders give the identical block result naming Carol. -/
theorem c9_amended_singleton_diff_deterministic_witness :
    countPhase cfg2 envA sessC ⟨stA, [], 0⟩ =
      countPhase cfg2 env9r sessC ⟨stA, [], 0⟩ ∧
    countPhase cfg2 envA sessC ⟨stA, [], 0⟩ =
      { (⟨stA, [], 0⟩ : Cyc) with evs := [] ++ cfg2.webhooks.map (fun w =>
        Ev.countNotify w sessC.id (toString sessC.playerCount ++ "/" ++
          toString sessC.maxPlayers ++ " (" ++ ("Carol" ++ " joined") ++ ")")) } :=
  c9_amended_singleton_diff_deterministic cfg2 envA env9r sessC ⟨stA, [], 0⟩ "Carol"
    (fun l => List.Perm.refl l) (fun l => List.reverse_perm l)
    (by decide) (by decide)

/-!  No-raise refinement: with every PATCH returning a status, the
exception-aware cycle coincides with the status-level one. -/

theorem noRaise_false (w : String) (mid : Nat) : ¬ (noRaise w mid = true) :=
  fun h => Bool.false_ne_true h

theorem endMessagesGoX_no_raise (env : Env) (sid : String) (ws : List String) (a : Cyc) :
    endMessagesGoX env noRaise sid ws a = Except.ok (endMessagesGo env sid ws a) := by
  induction ws generalizing a with
  | nil => rfl
  | cons w ws ih =>
    unfold endMessagesGoX endMessagesGo
    cases hg : aGet (wGetD a.st w) sid with
    | none =>
      dsimp only
      exact ih _
    | some mid =>
      dsimp only
      rw [if_neg (noRaise_false w mid)]
      exact ih _

theorem markEndedSessionX_no_raise (cfg : Cfg) (env : Env) (sid : String) (a : Cyc) :
    markEndedSessionX cfg env noRaise sid a = Except.ok (markEndedSession cfg env sid a) := by
  unfold markEndedSessionX markEndedSession endMessages
  rw [endMessagesGoX_no_raise]

theorem runEndedX_no_raise (cfg : Cfg) (env : Env) (currentIds : List String)
    (sids : List String) (a : Cyc) :
    runEndedX cfg env noRaise currentIds sids a =
      Except.ok (runEnded cfg env currentIds sids a) := by
  induction sids generalizing a with
  | nil => rfl
  | cons sid sids ih =>
    unfold runEndedX runEnded
    by_cases hc : currentIds.contains sid = true
    · rw [if_pos hc, if_pos hc]
      exact ih _
    · rw [if_neg hc, if_neg hc, markEndedSessionX_no_raise]
      dsimp only
      exact ih _

theorem updateGoX_no_raise (cfg : Cfg) (env : Env) (sid : String)
    (ws : List String) (a : Cyc) :
    updateGoX cfg env noRaise sid ws a = Except.ok (updateGo cfg env sid ws a) := by
  induction ws generalizing a with
  | nil => rfl
  | cons w ws ih =>
    rw [updateGo_cons]
    unfold updateGoX
    cases hg : aGet (wGetD a.st w) sid with
    | none =>
      dsimp only
      exact ih _
    | some mid =>
      dsimp only
      rw [if_neg (noRaise_false w mid)]
      by_cases h2 : env.patchStatus w mid = 200 ∨ env.patchStatus w mid = 204
      · simp only [if_pos h2]
        exact ih _
      · simp only [if_neg h2]
        by_cases h4 : env.patchStatus w mid = 404
        · simp only [if_pos h4]
          exact ih _
        · simp only [if_neg h4]
          exact ih _

theorem handleSessionX_no_raise (cfg : Cfg) (env : Env) (api : ApiResp)
    (a : Cyc) (s : Session) :
    handleSessionX cfg env noRaise api a s = Except.ok (handleSession cfg env api a s) := by
  unfold handleSessionX handleSession
  by_cases h1 : s.id = ""
  · rw [if_pos h1, if_pos h1]
  · rw [if_neg h1, if_neg h1]
    by_cases h2 : ¬ hasMonitoredPlayer cfg.monitored s
    · rw [if_pos h2, if_pos h2]
    · rw [if_neg h2, if_neg h2]
      dsimp only
      by_cases hN : ((aGet a.st.active s.id).isNone ||
          !(cfg.webhooks.any (fun w => (aGet (wGetD a.st w) s.id).isSome))) = true
      · rw [if_pos hN, if_pos hN]
      · rw [if_neg hN, if_neg hN]
        by_cases h3 : (aGet a.st.active s.id).isSome = true
        · rw [if_pos h3, if_pos h3]
          rw [updateGoX_no_raise]
        · rw [if_neg h3, if_neg h3]

theorem runSessionsX_no_raise (cfg : Cfg) (env : Env) (api : ApiResp)
    (ss : List Session) (a : Cyc) :
    runSessionsX cfg env noRaise api ss a =
      Except.ok (runSessions cfg env api ss a) := by
  induction ss generalizing a with
  | nil => rfl
  | cons s ss ih =>
    unfold runSessionsX runSessions
    rw [handleSessionX_no_raise]
    dsimp only
    exact ih _

/-- On a run in which no PATCH raises, the exception-aware cycle is
exactly the status-level cycle. -/
theorem checkSessionsX_no_raise (cfg : Cfg) (env : Env) (st : St)
    (apiOpt : Option ApiResp) :
    checkSessionsX cfg env noRaise st apiOpt = checkSessions cfg env st apiOpt := by
  cases apiOpt with
  | none => rfl
  | some api =>
    unfold checkSessionsX checkSessions
    dsimp only
    rw [runEndedX_no_raise]
    dsimp only
    rw [runSessionsX_no_raise]

theorem handleSessionX_new_eq (cfg : Cfg) (env : Env) (raises : String → Nat → Bool)
    (api : ApiResp) (a : Cyc) (s : Session)
    (h1 : ¬ s.id = "") (h2 : hasMonitoredPlayer cfg.monitored s = true)
    (hN : ((aGet a.st.active s.id).isNone ||
      !(cfg.webhooks.any (fun w => (aGet (wGetD a.st w) s.id).isSome))) = true) :
    handleSessionX cfg env raises api a s =
      Except.ok (handleSession cfg env api a s) := by
  unfold handleSessionX
  rw [if_neg h1, if_neg (by simp [h2])]
  dsimp only
  rw [if_pos hN]
  rw [handleSession_new_eq cfg env api a s h1 h2 hN]

/-- C5 counterexample: session `A` is tracked with live messages at
`D1` and `D2` and is absent from the snapshot, but the ended PATCH at
`D1` raises (no try/except at src/main.py:826): the cycle aborts, the
cleanup at src/main.py:835-840 never runs — the Tracked Session Record
and both directory entries are retained — and `D2`, though it holds a
live identifier, gets no MarkEnded attempt at all, refuting "removed
afterward regardless of whether each delivery succeeded or failed". -/
theorem c5_counterexample :
    aGet stA.active "A" = some sessA ∧
    "A" ∉ apiB.sessions.map Session.id ∧
    entry stA "D1" "A" = some 100 ∧
    entry stA "D2" "A" = some 200 ∧
    raisesD1 "D1" 100 = true ∧
    (checkSessionsX cfg2 envA raisesD1 stA (some apiB)).2 = [] ∧
    aGet (checkSessionsX cfg2 envA raisesD1 stA (some apiB)).1.active "A" = some sessA ∧
    entry (checkSessionsX cfg2 envA raisesD1 stA (some apiB)).1 "D1" "A" = some 100 ∧
    entry (checkSessionsX cfg2 envA raisesD1 stA (some apiB)).1 "D2" "A" = some 200 :=
  have h6 : (checkSessionsX cfg2 envA raisesD1 stA (some apiB)).2 = [] := rfl
  have h7 : aGet (checkSessionsX cfg2 envA raisesD1 stA (some apiB)).1.active "A" =
      some sessA := rfl
  have h8 : entry (checkSessionsX cfg2 envA raisesD1 stA (some apiB)).1 "D1" "A" =
      some 100 := rfl
  have h9 : entry (checkSessionsX cfg2 envA raisesD1 stA (some apiB)).1 "D2" "A" =
      some 200 := rfl
  ⟨rfl, by decide, rfl, rfl, rfl, h6, h7, h8, h9⟩

/-- C5 amended: for a tracked session absent from the snapshot, on a
cycle in which every ended PATCH completes with an HTTP status —
success or failure alike — exactly one MarkEnded delivery is attempted
per destination holding a live identifier, and the Tracked Session
Record and all directory entries are removed regardless of those
statuses.  (When a delivery raises instead, the cleanup is skipped and
the record retained: see the counterexample.) -/
theorem c5_amended_removed_when_no_exception (cfg : Cfg) (env : Env)
    (raises : String → Nat → Bool) (st : St) (api : ApiResp) (sid : String)
    (sOld : Session)
    (hnr : ∀ w mid, raises w mid = false)
    (hnd : cfg.webhooks.Nodup)
    (hA : aGet st.active sid = some sOld)
    (hkeys : (st.active.map Prod.fst).Nodup)
    (hAbs : sid ∉ api.sessions.map Session.id) :
    (∀ w ∈ cfg.webhooks,
      (((checkSessionsX cfg env raises st (some api)).2).filter (isEndedFor w sid)).length =
        if (entry st w sid).isSome then 1 else 0) ∧
    (∀ e ∈ (checkSessionsX cfg env raises st (some api)).2, evSid e = sid →
      ∃ w mid stt, w ∈ cfg.webhooks ∧ e = Ev.markEnded w sid mid stt) ∧
    aGet (checkSessionsX cfg env raises st (some api)).1.active sid = none ∧
    aGet (checkSessionsX cfg env raises st (some api)).1.playerCounts sid = none ∧
    aGet (checkSessionsX cfg env raises st (some api)).1.lastKnownStates sid = none ∧
    (∀ w ∈ cfg.webhooks, entry (checkSessionsX cfg env raises st (some api)).1 w sid = none) := by
  have hre : raises = noRaise := funext fun w => funext fun mid => hnr w mid
  subst hre
  rw [checkSessionsX_no_raise]
  exact c5_vanished_marked_once_and_removed cfg env st api sid sOld hnd hA hkeys hAbs

/-- Witness for the amended C5: both ended PATCHes answer 500 (without
raising); `A` still gets exactly one MarkEnded per destination and is
fully removed. -/
theorem c5_amended_removed_when_no_exception_witness :
    (∀ w ∈ cfg2.webhooks,
      (((checkSessionsX cfg2 env500 noRaise stA (some apiB)).2).filter
          (isEndedFor w "A")).length =
        if (entry stA w "A").isSome then 1 else 0) ∧
    (∀ e ∈ (checkSessionsX cfg2 env500 noRaise stA (some apiB)).2, evSid e = "A" →
      ∃ w mid stt, w ∈ cfg2.webhooks ∧ e = Ev.markEnded w "A" mid stt) ∧
    aGet (checkSessionsX cfg2 env500 noRaise stA (some apiB)).1.active "A" = none ∧
    aGet (checkSessionsX cfg2 env500 noRaise stA (some apiB)).1.playerCounts "A" = none ∧
    aGet (checkSessionsX cfg2 env500 noRaise stA (some apiB)).1.lastKnownStates "A" = none ∧
    (∀ w ∈ cfg2.webhooks,
      entry (checkSessionsX cfg2 env500 noRaise stA (some apiB)).1 w "A" = none) :=
  c5_amended_removed_when_no_exception cfg2 env500 noRaise stA apiB "A" sessA
    (fun _ _ => rfl) (by decide) rfl (by decide) (by decide)

/-- C8 counterexample: session `A` is tracked at `D1` and `D2` and the
snapshot also brings the new relevant session `B`.  Without exceptions
the cycle patches `A` at both destinations and creates `B` at both;
when the update PATCH at `D1` raises (no try/except at
src/main.py:650-666), the blanket except at src/main.py:673 ends the
cycle: `D2` — whose own delivery would have succeeded — receives
nothing, and session `B` is never delivered anywhere, refuting "a
delivery failure at one destination does not prevent delivery to the
other destinations ... or for other sessions". -/
theorem c8_counterexample :
    entry stA "D1" "A" = some 100 ∧
    entry stA "D2" "A" = some 200 ∧
    raisesD1 "D1" 100 = true ∧
    raisesD1 "D2" 200 = false ∧
    (checkSessions cfg2 envA stA (some apiAB)).2 =
      [Ev.patch "D1" "A" 100 200, Ev.patch "D2" "A" 200 200,
       Ev.create "D1" "B" (some 1000), Ev.create "D2" "B" (some 1001)] ∧
    (checkSessionsX cfg2 envA raisesD1 stA (some apiAB)).2 = [] ∧
    aGet (checkSessionsX cfg2 envA raisesD1 stA (some apiAB)).1.active "B" = none ∧
    entry (checkSessionsX cfg2 envA raisesD1 stA (some apiAB)).1 "D2" "B" = none :=
  have h5 : (checkSessions cfg2 envA stA (some apiAB)).2 =
      [Ev.patch "D1" "A" 100 200, Ev.patch "D2" "A" 200 200,
       Ev.create "D1" "B" (some 1000), Ev.create "D2" "B" (some 1001)] := rfl
  have h6 : (checkSessionsX cfg2 envA raisesD1 stA (some apiAB)).2 = [] := rfl
  have h7 : aGet (checkSessionsX cfg2 envA raisesD1 stA (some apiAB)).1.active "B" =
      none := rfl
  have h8 : entry (checkSessionsX cfg2 envA raisesD1 stA (some apiAB)).1 "D2" "B" =
      none := rfl
  ⟨rfl, rfl, rfl, rfl, h5, h6, h7, h8⟩

/-- C8 amended: isolation holds on the Create path and for
status-class failures.  First half: for a new session, whatever
PATCHes would raise and whatever each destination answers, every
configured destination receives its Create attempt (the loop in
`send_discord_notification` is try/except-protected per webhook).
Second half: on a cycle in which no PATCH raises, each destination
holding a live identifier for a tracked session receives its Patch
attempt, whatever the other destinations' statuses.  (An
exception-class failure in the unprotected update loop instead aborts
delivery to the remaining destinations and sessions: see the
counterexample.) -/
theorem c8_amended_isolation (cfg : Cfg) (env : Env) (raises : String → Nat → Bool)
    (st : St) (s : Session) (api : ApiResp) :
    ((¬ s.id = "") → hasMonitoredPlayer cfg.monitored s = true →
      st.active = [] →
      api.sessions = [s] →
      ∀ w ∈ cfg.webhooks, ∃ r,
        Ev.create w s.id r ∈ (checkSessionsX cfg env raises st (some api)).2) ∧
    ((∀ w mid, raises w mid = false) →
      (¬ s.id = "") → hasMonitoredPlayer cfg.monitored s = true →
      st.active = [(s.id, s)] →
      aGet st.playerCounts s.id = some s.playerCount →
      aGet st.lastKnownStates s.id = some s.state →
      cfg.webhooks.any (fun w => (aGet (wGetD st w) s.id).isSome) = true →
      api.sessions = [s] →
      ∀ w ∈ cfg.webhooks, (entry st w s.id).isSome = true →
        ∃ mid stt, Ev.patch w s.id mid stt ∈ (checkSessionsX cfg env raises st (some api)).2) := by
  constructor
  · intro hid hrel hact hapi w hw
    have hXeq : checkSessionsX cfg env raises st (some api) =
        checkSessions cfg env st (some api) := by
      have hpairX : checkSessionsX cfg env raises st (some api) =
          (let st1 : St := { st with lastKnownMods := mergePy st.lastKnownMods api.mods }
           match runEndedX cfg env raises (api.sessions.map Session.id)
               (st1.active.map Prod.fst) ⟨st1, [], 0⟩ with
           | Except.error a => (a.st, a.evs)
           | Except.ok a =>
             match runSessionsX cfg env raises api api.sessions a with
             | Except.error b => (b.st, b.evs)
             | Except.ok b => (b.st, b.evs)) := rfl
      have hpair : checkSessions cfg env st (some api) =
          (let st1 : St := { st with lastKnownMods := mergePy st.lastKnownMods api.mods }
           let a2 := runSessions cfg env api api.sessions
             (runEnded cfg env (api.sessions.map Session.id) (st1.active.map Prod.fst)
               ⟨st1, [], 0⟩)
           (a2.st, a2.evs)) := rfl
      rw [hpairX, hpair]
      dsimp only
      rw [show ({ st with lastKnownMods := mergePy st.lastKnownMods api.mods} : St).active.map
          Prod.fst = [] from by
        rw [show ({ st with lastKnownMods := mergePy st.lastKnownMods api.mods} : St).active
          = [] from hact]
        rfl]
      rw [hapi]
      set st1 : St := { st with lastKnownMods := mergePy st.lastKnownMods api.mods } with hst1
      rw [show runEndedX cfg env raises (List.map Session.id [s]) [] (⟨st1, [], 0⟩ : Cyc) =
        Except.ok (⟨st1, [], 0⟩ : Cyc) from rfl]
      dsimp only
      rw [show runSessionsX cfg env raises api [s] (⟨st1, [], 0⟩ : Cyc) =
          (match handleSessionX cfg env raises api (⟨st1, [], 0⟩ : Cyc) s with
           | Except.error a1 => Except.error a1
           | Except.ok a1 => runSessionsX cfg env raises api [] a1) from rfl]
      rw [handleSessionX_new_eq cfg env raises api ⟨st1, [], 0⟩ s hid hrel
        (by rw [show aGet (⟨st1, [], 0⟩ : Cyc).st.active s.id = aGet st1.active s.id from rfl,
              show st1.active = [] from hact]
            rfl)]
      dsimp only
      rw [runEnded_nil, runSessions_singleton]
      rw [show runSessionsX cfg env raises api []
          (handleSession cfg env api (⟨st1, [], 0⟩ : Cyc) s) =
        Except.ok (handleSession cfg env api (⟨st1, [], 0⟩ : Cyc) s) from rfl]
    rw [hXeq]
    exact (c8_destination_isolation cfg env st s api).2 hid hrel hact hapi w hw
  · intro hnr hid hrel hact hcount hstate hex hapi w hw hsome
    have hre : raises = noRaise := funext fun w2 => funext fun mid => hnr w2 mid
    subst hre
    rw [checkSessionsX_no_raise]
    exact (c8_destination_isolation cfg env st s api).1 hid hrel hact hcount hstate hex
      hapi w hw hsome

/-- Witness for the amended C8: from the empty state `D1` receives its
Create attempt even with every PATCH set to raise; and with `D1`'s
patch answering 404 (without raising), `D2` still receives its Patch
attempt. -/
theorem c8_amended_isolation_witness :
    (∃ r, Ev.create "D1" "A" r ∈
      (checkSessionsX cfg2 envA (fun _ _ => true) stEmpty (some apiA)).2) ∧
    (∃ mid stt, Ev.patch "D2" "A" mid stt ∈
      (checkSessionsX cfg2 env404 noRaise stA (some apiA)).2) :=
  ⟨(c8_amended_isolation cfg2 envA (fun _ _ => true) stEmpty sessA apiA).1
      (by decide) rfl rfl rfl "D1" (by decide),
   (c8_amended_isolation cfg2 env404 noRaise stA sessA apiA).2
      (fun _ _ => rfl) (by decide) rfl rfl rfl rfl rfl rfl "D2" (by decide) rfl⟩
